import Mathlib

/-! Schrader BC5A4 TPMS decoder (src/protocols/schrader_bc5a4.c)

A shallow embedding of the frame-acquisition decoder: the pulse classifier
`level_and_duration_to_event`, the state machine
`tpms_protocol_decoder_schrader_bc5a4_feed`, the validator
`tpms_protocol_schrader_bc5a4_check_parity` and the field extractor
`tpms_protocol_schrader_bc5a4_analyze`.

Machine integers are natural numbers with an explicit reduction modulo
`2 ^ w` wherever the C code can overflow.  Functions of the Flipper firmware
that the file calls but does not define (`manchester_advance`,
`subghz_protocol_blocks_get_parity`) are parameters, collected in `Firmware`.
The callback is modelled by the list of records with which it was invoked.
-/

namespace SchraderBC5A4

/-! ## Data model -/

/-- Timing symbol handed to the line decoder (firmware enum `ManchesterEvent`). -/
inductive ManchesterEvent where
  | ManchesterEventShortLow
  | ManchesterEventShortHigh
  | ManchesterEventLongLow
  | ManchesterEventLongHigh
  | ManchesterEventReset
  deriving DecidableEq, Repr

/-- Phase of the line decoder (firmware enum `ManchesterState`). -/
inductive ManchesterState where
  | ManchesterStateStart1
  | ManchesterStateMid1
  | ManchesterStateMid0
  | ManchesterStateStart0
  deriving DecidableEq, Repr

/-- The enum `SchraderBC5A4DecoderStep` (schrader_bc5a4.c, lines 65-71). -/
inductive SchraderBC5A4DecoderStep where
  | SchraderBC5A4DecoderStepReset
  | SchraderBC5A4DecoderStepCheckPreamble
  | SchraderBC5A4DecoderStepDecoderData
  | SchraderBC5A4DecoderStepSaveDuration
  | SchraderBC5A4DecoderStepCheckDuration
  deriving DecidableEq, Repr

open ManchesterEvent ManchesterState SchraderBC5A4DecoderStep

/-- Timing constants of a protocol (firmware struct `SubGhzBlockConst`). -/
structure SubGhzBlockConst where
  te_short : Nat
  te_long : Nat
  te_delta : Nat
  min_count_bit_for_found : Nat
  deriving DecidableEq, Repr

/-- The constant table of schrader_bc5a4.c, lines 41-46. -/
def tpms_protocol_schrader_bc5a4_const : SubGhzBlockConst :=
  { te_short := 123, te_long := 244, te_delta := 62, min_count_bit_for_found := 42 }

/-- The macro `PREAMBLE_BITS_LEN` (schrader_bc5a4.c, line 39). -/
def PREAMBLE_BITS_LEN : Nat := 2

/-- Modelled from the spec: the constant `TPMS_NO_BATT` is declared in
tpms_generic.h, which is not among the sources; it stands for the battery
state the spec calls Unknown.  No property below depends on its value. -/
def TPMS_NO_BATT : Nat := 0xFF

/-- The firmware macro `DURATION_DIFF(x, y)`: the absolute difference
`((x) < (y)) ? ((y) - (x)) : ((x) - (y))`; neither branch can wrap. -/
def DURATION_DIFF (x y : Nat) : Nat :=
  if x < y then y - x else x - y

/-- Modelled from the spec: the record type `TPMSBlockGeneric` is declared in
tpms_generic.h, which is not among the sources.  The fields are those of the
spec's DecodedRecord that the decoder writes: `data` (raw bits, a `uint64_t`),
`data_count_bit` (raw bit count, a `uint8_t`), `id` (the sensor id, a `u32`),
`battery_low`, `pressure` and `temperature`.  The last two are numeric fields
that `get_string` prints as floating point; here they hold the exact value of
the unsigned 64-bit integer expression that `analyze` assigns to them, which
the conversion to the field type keeps non-negative. -/
structure TPMSBlockGeneric where
  data : Nat
  data_count_bit : Nat
  id : Nat
  battery_low : Nat
  pressure : Nat
  temperature : Nat
  deriving DecidableEq, Repr

/-- The firmware struct `SubGhzBlockDecoder`: `parser_step`, the 64-bit
accumulator `decode_data` and the 8-bit counter `decode_count_bit`. -/
structure SubGhzBlockDecoder where
  parser_step : SchraderBC5A4DecoderStep
  decode_data : Nat
  decode_count_bit : Nat
  deriving DecidableEq, Repr

/-- The struct `TPMSProtocolDecoderSchraderBC5A4` (schrader_bc5a4.c, lines
48-56).  `callback` records whether `base.callback` is non-null;
`header_count` is a `uint16_t`. -/
structure TPMSProtocolDecoderSchraderBC5A4 where
  callback : Bool
  decoder : SubGhzBlockDecoder
  generic : TPMSBlockGeneric
  manchester_saved_state : ManchesterState
  header_count : Nat
  deriving DecidableEq, Repr

/-- The firmware functions the decoder calls.  `manchester_advance state event`
returns the function result (a bit is available), the state written through
`next_state`, and the value of the variable `bit` after the call.
`subghz_protocol_blocks_get_parity key bit_count` returns a `uint8_t`. -/
structure Firmware where
  manchester_advance : ManchesterState → ManchesterEvent → Bool × ManchesterState × Bool
  subghz_protocol_blocks_get_parity : Nat → Nat → Nat

/-! ## Operations -/

/-- The firmware helper `subghz_protocol_blocks_add_bit`:
`decode_data = decode_data << 1 | bit; decode_count_bit++`. -/
def subghz_protocol_blocks_add_bit (decoder : SubGhzBlockDecoder) (bit : Bool) :
    SubGhzBlockDecoder :=
  { decoder with
    decode_data := ((decoder.decode_data <<< 1) % 2 ^ 64) ||| bit.toNat
    decode_count_bit := (decoder.decode_count_bit + 1) % 2 ^ 8 }

/-- The function `tpms_protocol_decoder_schrader_bc5a4_reset` (lines 119-123). -/
def tpms_protocol_decoder_schrader_bc5a4_reset
    (inst : TPMSProtocolDecoderSchraderBC5A4) : TPMSProtocolDecoderSchraderBC5A4 :=
  { inst with decoder := { inst.decoder with parser_step := SchraderBC5A4DecoderStepReset } }

/-- The function `tpms_protocol_schrader_bc5a4_check_parity` (lines 125-128):
the 8-bit parity is or-ed with `0xFF` and the result converted to `bool`. -/
def tpms_protocol_schrader_bc5a4_check_parity (fw : Firmware)
    (inst : TPMSProtocolDecoderSchraderBC5A4) : Bool :=
  let parity := fw.subghz_protocol_blocks_get_parity
    inst.decoder.decode_data inst.decoder.decode_count_bit % 2 ^ 8
  (parity ||| 0xFF) != 0

/-- The function `tpms_protocol_schrader_bc5a4_analyze` (lines 134-142).  The
shift result is truncated to the 32-bit `id`; the pressure quotient and the
temperature difference are computed in `uint64_t`, so the division truncates
and the subtraction wraps modulo `2 ^ 64`. -/
def tpms_protocol_schrader_bc5a4_analyze (instance_ : TPMSBlockGeneric) : TPMSBlockGeneric :=
  { instance_ with
    id := (instance_.data >>> (42 - 24)) % 2 ^ 32
    battery_low := TPMS_NO_BATT
    pressure := ((instance_.data >>> 9) &&& 0x1FF) / 100
    temperature := ((instance_.data &&& 0xFF) + 2 ^ 64 - 50) % 2 ^ 64 }

/-- The function `level_and_duration_to_event` (lines 144-161). -/
def level_and_duration_to_event (level : Bool) (duration : Nat) : ManchesterEvent :=
  if DURATION_DIFF duration tpms_protocol_schrader_bc5a4_const.te_long <
      tpms_protocol_schrader_bc5a4_const.te_delta then
    (if level then ManchesterEventLongHigh else ManchesterEventLongLow)
  else if DURATION_DIFF duration tpms_protocol_schrader_bc5a4_const.te_short <
      tpms_protocol_schrader_bc5a4_const.te_delta then
    (if level then ManchesterEventShortHigh else ManchesterEventShortLow)
  else ManchesterEventReset

/-- The `switch` statement of `feed` (lines 195-238), run with the value of
the local variable `bit`.  The result is the instance after the statement and
the records with which the callback was invoked. -/
def feed_switch (fw : Firmware) (inst : TPMSProtocolDecoderSchraderBC5A4)
    (level : Bool) (duration : Nat) (bit : Bool) :
    TPMSProtocolDecoderSchraderBC5A4 × List TPMSBlockGeneric :=
  match inst.decoder.parser_step with
  | SchraderBC5A4DecoderStepReset =>
    if level && decide (DURATION_DIFF duration (tpms_protocol_schrader_bc5a4_const.te_long * 2) <
        tpms_protocol_schrader_bc5a4_const.te_delta) then
      ({ inst with
         decoder := { parser_step := SchraderBC5A4DecoderStepCheckPreamble,
                      decode_data := 0, decode_count_bit := 0 }
         header_count := 0
         manchester_saved_state := ManchesterStateStart1 }, [])
    else (inst, [])
  | SchraderBC5A4DecoderStepCheckPreamble =>
    if bit then
      ({ inst with decoder := { inst.decoder with parser_step := SchraderBC5A4DecoderStepReset } },
        [])
    else
      let inst1 := { inst with header_count := (inst.header_count + 1) % 2 ^ 16 }
      if inst1.header_count = PREAMBLE_BITS_LEN then
        ({ inst1 with
           decoder := { inst1.decoder with parser_step := SchraderBC5A4DecoderStepDecoderData } },
          [])
      else (inst1, [])
  | SchraderBC5A4DecoderStepDecoderData =>
    let inst1 := { inst with decoder := subghz_protocol_blocks_add_bit inst.decoder bit }
    if inst1.decoder.decode_count_bit ≥
        tpms_protocol_schrader_bc5a4_const.min_count_bit_for_found then
      if !tpms_protocol_schrader_bc5a4_check_parity fw inst1 then
        ({ inst1 with
           decoder := { inst1.decoder with parser_step := SchraderBC5A4DecoderStepReset } }, [])
      else
        let inst2 := { inst1 with
          generic := tpms_protocol_schrader_bc5a4_analyze
            { inst1.generic with
              data := inst1.decoder.decode_data
              data_count_bit := inst1.decoder.decode_count_bit } }
        ({ inst2 with
           decoder := { inst2.decoder with parser_step := SchraderBC5A4DecoderStepReset } },
          if inst2.callback then [inst2.generic] else [])
    else (inst1, [])
  | _ => (inst, [])

/-- The function `tpms_protocol_decoder_schrader_bc5a4_feed` (lines 163-239):
the line-decoding block followed by the `switch` statement. -/
def tpms_protocol_decoder_schrader_bc5a4_feed (fw : Firmware)
    (inst : TPMSProtocolDecoderSchraderBC5A4) (level : Bool) (duration : Nat) :
    TPMSProtocolDecoderSchraderBC5A4 × List TPMSBlockGeneric :=
  if inst.decoder.parser_step ≠ SchraderBC5A4DecoderStepReset then
    let event := level_and_duration_to_event level duration
    if event = ManchesterEventReset then
      feed_switch fw
        { inst with decoder := { inst.decoder with parser_step := SchraderBC5A4DecoderStepReset } }
        level duration false
    else
      let r := fw.manchester_advance inst.manchester_saved_state event
      let inst1 := { inst with manchester_saved_state := r.2.1 }
      if !r.1 then (inst1, [])
      else feed_switch fw inst1 level duration (!r.2.2)
  else feed_switch fw inst level duration false

/-! ## Edge sequences -/

/-- One edge event: the arguments `level` and `duration` of one `feed` call. -/
structure EdgeEvent where
  level : Bool
  duration : Nat
  deriving DecidableEq, Repr

/-- Successive `feed` calls on one instance, one per edge event; the second
component collects the callback invocations in order. -/
def feed_all (fw : Firmware) (inst : TPMSProtocolDecoderSchraderBC5A4) :
    List EdgeEvent → TPMSProtocolDecoderSchraderBC5A4 × List TPMSBlockGeneric
  | [] => (inst, [])
  | e :: es =>
    let r := tpms_protocol_decoder_schrader_bc5a4_feed fw inst e.level e.duration
    let rs := feed_all fw r.1 es
    (rs.1, r.2 ++ rs.2)

/-- An edge event is recognised when the pulse classifier gives a short or a
long symbol for it. -/
def recognised (e : EdgeEvent) : Prop :=
  level_and_duration_to_event e.level e.duration ≠ ManchesterEventReset

instance (e : EdgeEvent) : Decidable (recognised e) := by
  unfold recognised; exact inferInstance

/-- An edge event is a valid start pulse: high level and a duration within
`te_delta` of `2 * te_long = 488`. -/
def start_pulse (e : EdgeEvent) : Prop :=
  e.level = true ∧ DURATION_DIFF e.duration 488 < 62

instance (e : EdgeEvent) : Decidable (start_pulse e) := by
  unfold start_pulse; exact inferInstance

/-- The bits the line decoder delivers, after the inversion done by `feed`,
when it is run from state `st` over the classified events of `es`. -/
def line_bits (fw : Firmware) (st : ManchesterState) : List EdgeEvent → List Bool
  | [] => []
  | e :: es =>
    let r := fw.manchester_advance st (level_and_duration_to_event e.level e.duration)
    if r.1 then (!r.2.2) :: line_bits fw r.2.1 es else line_bits fw r.2.1 es

/-- Value of a bit sequence read most-significant-bit-first. -/
def bits_value (bs : List Bool) : Nat :=
  bs.foldl (fun v b => 2 * v + b.toNat) 0

/-! ## Reference behaviour of the firmware routines

The theorems below hold for every `Firmware`.  To evaluate the decoder on
concrete edge sequences the two routines are also given as the firmware
implements them (lib/toolbox/manchester_decoder.c and
lib/subghz/blocks/generic.c of the Flipper firmware). -/

/-- Numeric value of a `ManchesterState`. -/
def state_value : ManchesterState → Nat
  | ManchesterStateStart1 => 0
  | ManchesterStateMid1 => 1
  | ManchesterStateMid0 => 2
  | ManchesterStateStart0 => 3

/-- The `ManchesterState` with a given numeric value. -/
def state_of_value : Nat → ManchesterState
  | 0 => ManchesterStateStart1
  | 1 => ManchesterStateMid1
  | 2 => ManchesterStateMid0
  | _ => ManchesterStateStart0

/-- Numeric value of a `ManchesterEvent`. -/
def event_value : ManchesterEvent → Nat
  | ManchesterEventShortLow => 0
  | ManchesterEventShortHigh => 2
  | ManchesterEventLongLow => 4
  | ManchesterEventLongHigh => 6
  | ManchesterEventReset => 8

/-- The firmware line decoder `manchester_advance`, with its transition table
`{0b00000001, 0b10010001, 0b10011011, 0b11111011}` and reset state `Mid1`. -/
def manchester_advance_ref (state : ManchesterState) (event : ManchesterEvent) :
    Bool × ManchesterState × Bool :=
  if event = ManchesterEventReset then (false, ManchesterStateMid1, false)
  else
    let new_state := state_of_value
      (([0b00000001, 0b10010001, 0b10011011, 0b11111011].getD (state_value state) 0 >>>
        event_value event) &&& 3)
    if new_state = state then (false, ManchesterStateMid1, false)
    else if new_state = ManchesterStateMid0 then (true, new_state, false)
    else if new_state = ManchesterStateMid1 then (true, new_state, true)
    else (false, new_state, false)

/-- The firmware routine `subghz_protocol_blocks_get_parity`: the number of
set bits among the low `bit_count` bits of `key`, modulo 2. -/
def get_parity_ref (key bit_count : Nat) : Nat :=
  ((List.range bit_count).foldl (fun p i => (p + (key >>> i) % 2) % 2 ^ 8) 0) &&& 1

/-- The firmware routines as the firmware implements them. -/
def firmware_ref : Firmware :=
  { manchester_advance := manchester_advance_ref
    subghz_protocol_blocks_get_parity := get_parity_ref }

/-- An instance in step Reset with stale contents in every other field. -/
def stale_instance : TPMSProtocolDecoderSchraderBC5A4 :=
  { callback := true
    decoder := { parser_step := SchraderBC5A4DecoderStepReset,
                 decode_data := 0xDEADBEEF, decode_count_bit := 17 }
    generic := { data := 5, data_count_bit := 3, id := 7, battery_low := 0,
                 pressure := 1, temperature := 9 }
    manchester_saved_state := ManchesterStateMid0
    header_count := 9 }

/-- The 42 payload bits of the value `d`, most significant bit first. -/
def payload_bits (d : Nat) : List Bool :=
  (List.range 42).map (fun i => decide ((d >>> (41 - i)) % 2 = 1))

/-- Test fixture: the pulses that make the firmware line decoder deliver the
bits `bs` (as seen after the inversion in `feed`) when the previously
delivered bit was `last`: a repeated bit is a short pulse pair, a changed bit
one long pulse; the level alternates. -/
def manchester_encode : Bool → List Bool → List EdgeEvent
  | _, [] => []
  | false, false :: bs =>
    { level := true, duration := 123 } :: { level := false, duration := 123 } ::
      manchester_encode false bs
  | false, true :: bs => { level := true, duration := 244 } :: manchester_encode true bs
  | true, true :: bs =>
    { level := false, duration := 123 } :: { level := true, duration := 123 } ::
      manchester_encode true bs
  | true, false :: bs => { level := false, duration := 244 } :: manchester_encode false bs

/-- Test fixture: the edge events, after the start pulse, of the frame with
payload value `d` at the nominal timings: a short low pulse delivers the first
preamble bit, then the second preamble bit and the 42 payload bits follow. -/
def frame_edges (d : Nat) : List EdgeEvent :=
  { level := false, duration := 123 } :: manchester_encode false (false :: payload_bits d)

/-- The 42 payload bits of the example `fffe088d4980444` of the source comment. -/
def example_payload : Nat := 0x088d4980444

/-- An instance in the middle of a frame: step DecoderData with seven payload
bits accumulated. -/
def mid_frame_instance : TPMSProtocolDecoderSchraderBC5A4 :=
  { callback := true
    decoder := { parser_step := SchraderBC5A4DecoderStepDecoderData,
                 decode_data := 0x55, decode_count_bit := 7 }
    generic := { data := 0, data_count_bit := 0, id := 0, battery_low := 0,
                 pressure := 0, temperature := 0 }
    manchester_saved_state := ManchesterStateMid1
    header_count := 2 }

/-- A valid start pulse at the nominal duration `2 * te_long`. -/
def nominal_start : EdgeEvent := { level := true, duration := 488 }

/-! ## Bit-level view of the state machine -/

/-- What one delivered bit does to an instance: nothing in step Reset (where
`feed` does not consult the line decoder), otherwise the `switch` statement. -/
def bit_feed (fw : Firmware) (inst : TPMSProtocolDecoderSchraderBC5A4) (bit : Bool) :
    TPMSProtocolDecoderSchraderBC5A4 × List TPMSBlockGeneric :=
  if inst.decoder.parser_step = SchraderBC5A4DecoderStepReset then (inst, [])
  else feed_switch fw inst false 0 bit

/-- The function `bit_feed` over a sequence of delivered bits. -/
def bit_run (fw : Firmware) (inst : TPMSProtocolDecoderSchraderBC5A4) :
    List Bool → TPMSProtocolDecoderSchraderBC5A4 × List TPMSBlockGeneric
  | [] => (inst, [])
  | b :: bs =>
    let r := bit_feed fw inst b
    let rs := bit_run fw r.1 bs
    (rs.1, r.2 ++ rs.2)

/-- The instance with its line decoder state replaced. -/
def with_line_state (inst : TPMSProtocolDecoderSchraderBC5A4) (m : ManchesterState) :
    TPMSProtocolDecoderSchraderBC5A4 :=
  { inst with manchester_saved_state := m }

/-- The instance right after a start pulse was accepted in step Reset
(lines 200-207). -/
def started (inst : TPMSProtocolDecoderSchraderBC5A4) : TPMSProtocolDecoderSchraderBC5A4 :=
  { inst with
    decoder := { parser_step := SchraderBC5A4DecoderStepCheckPreamble,
                 decode_data := 0, decode_count_bit := 0 }
    header_count := 0
    manchester_saved_state := ManchesterStateStart1 }

/-- The record handed to the callback for a frame with payload value `d`:
`analyze` run on the generic record after `data` and `data_count_bit` were
copied from the accumulator (lines 229-231). -/
def delivered_record (inst : TPMSProtocolDecoderSchraderBC5A4) (d : Nat) : TPMSBlockGeneric :=
  tpms_protocol_schrader_bc5a4_analyze { inst.generic with data := d, data_count_bit := 42 }

/-- The state-machine invariant of instances reachable from step Reset. -/
def reachable_inv (inst : TPMSProtocolDecoderSchraderBC5A4) : Prop :=
  (inst.decoder.parser_step = SchraderBC5A4DecoderStepReset ∨
    inst.decoder.parser_step = SchraderBC5A4DecoderStepCheckPreamble ∨
    inst.decoder.parser_step = SchraderBC5A4DecoderStepDecoderData) ∧
  (inst.decoder.parser_step = SchraderBC5A4DecoderStepCheckPreamble →
    inst.decoder.decode_count_bit = 0 ∧ inst.decoder.decode_data = 0 ∧ inst.header_count < 2) ∧
  (inst.decoder.parser_step = SchraderBC5A4DecoderStepDecoderData →
    inst.header_count = 2 ∧ inst.decoder.decode_count_bit < 42 ∧
    inst.decoder.decode_data < 2 ^ inst.decoder.decode_count_bit)

/-! ## Hashing, call sequences -/

/-- The function `tpms_protocol_decoder_schrader_bc5a4_get_hash_data` (lines
241-246).  The firmware routine `subghz_protocol_blocks_get_hash_data`, which
receives the decoder block and a byte count, is the parameter `hash`. -/
def tpms_protocol_decoder_schrader_bc5a4_get_hash_data
    (hash : SubGhzBlockDecoder → Nat → Nat) (inst : TPMSProtocolDecoderSchraderBC5A4) : Nat :=
  hash inst.decoder (inst.decoder.decode_count_bit / 8 + 1)

/-- The firmware routine `subghz_protocol_blocks_get_hash_data` as the firmware
implements it, for `len` at most 8: the exclusive or of the first `len` bytes
of `decode_data` (least significant byte first). -/
def get_hash_data_ref (decoder : SubGhzBlockDecoder) (len : Nat) : Nat :=
  (List.range len).foldl (fun h i => h ^^^ ((decoder.decode_data >>> (8 * i)) % 2 ^ 8)) 0

/-- One call made on a decoder instance through its descriptor: `feed` with a
level and a duration, or `reset`. -/
inductive DecoderCall where
  | feed (level : Bool) (duration : Nat)
  | reset
  deriving DecidableEq, Repr

/-- The effect of one call: the instance afterwards and the callback
invocations it made. -/
def run_call (fw : Firmware) (inst : TPMSProtocolDecoderSchraderBC5A4) :
    DecoderCall → TPMSProtocolDecoderSchraderBC5A4 × List TPMSBlockGeneric
  | DecoderCall.feed level duration =>
    tpms_protocol_decoder_schrader_bc5a4_feed fw inst level duration
  | DecoderCall.reset => (tpms_protocol_decoder_schrader_bc5a4_reset inst, [])

/-- Successive calls on one instance; the second component collects the
callback invocations in order. -/
def run_calls (fw : Firmware) (inst : TPMSProtocolDecoderSchraderBC5A4) :
    List DecoderCall → TPMSProtocolDecoderSchraderBC5A4 × List TPMSBlockGeneric
  | [] => (inst, [])
  | c :: cs =>
    let r := run_call fw inst c
    let rs := run_calls fw r.1 cs
    (rs.1, r.2 ++ rs.2)

/-- Two instances agree on everything the decoding reads: the callback
registration, the decoder block, the preamble counter and the line decoder
state (the generic record may differ). -/
def same_decoding (a b : TPMSProtocolDecoderSchraderBC5A4) : Prop :=
  a.callback = b.callback ∧ a.decoder = b.decoder ∧ a.header_count = b.header_count ∧
    a.manchester_saved_state = b.manchester_saved_state

/-- An instance holding a complete 42-bit frame, as `feed` leaves it after the
last payload bit of the example payload. -/
def complete_frame_instance : TPMSProtocolDecoderSchraderBC5A4 :=
  { callback := true
    decoder := { parser_step := SchraderBC5A4DecoderStepReset,
                 decode_data := example_payload, decode_count_bit := 42 }
    generic := tpms_protocol_schrader_bc5a4_analyze
      { data := example_payload, data_count_bit := 42, id := 0, battery_low := 0,
        pressure := 0, temperature := 0 }
    manchester_saved_state := ManchesterStateMid1
    header_count := 2 }

/-- The calls that feed a start pulse and the first three edges of the
example frame, which deliver the two preamble bits. -/
def preamble_calls : List DecoderCall :=
  [DecoderCall.feed true 488, DecoderCall.feed false 123, DecoderCall.feed true 123,
   DecoderCall.feed false 123]

/-- The calls that feed one edge sequence. -/
def feed_calls (es : List EdgeEvent) : List DecoderCall :=
  es.map (fun e => DecoderCall.feed e.level e.duration)

/-- An instance in step Reset whose bit counter holds a stale value above 42
(the allocator leaves `decode_count_bit` uninitialised and `reset` does not
clear it). -/
def overfull_instance : TPMSProtocolDecoderSchraderBC5A4 :=
  { callback := true
    decoder := { parser_step := SchraderBC5A4DecoderStepReset,
                 decode_data := 0, decode_count_bit := 200 }
    generic := { data := 0, data_count_bit := 0, id := 0, battery_low := 0,
                 pressure := 0, temperature := 0 }
    manchester_saved_state := ManchesterStateMid1
    header_count := 0 }

/-! ## Basic facts about single `feed` calls -/

theorem duration_diff_lt_iff (d c t : Nat) :
    DURATION_DIFF d c < t ↔ d < c + t ∧ c < d + t := by
  unfold DURATION_DIFF
  split <;> omega

theorem feed_of_reset (fw : Firmware) (inst : TPMSProtocolDecoderSchraderBC5A4)
    (level : Bool) (duration : Nat)
    (hstep : inst.decoder.parser_step = SchraderBC5A4DecoderStepReset) :
    tpms_protocol_decoder_schrader_bc5a4_feed fw inst level duration =
      feed_switch fw inst level duration false := by
  simp [tpms_protocol_decoder_schrader_bc5a4_feed, hstep]

theorem feed_switch_reset_start (fw : Firmware) (inst : TPMSProtocolDecoderSchraderBC5A4)
    (level : Bool) (duration : Nat) (bit : Bool)
    (hstep : inst.decoder.parser_step = SchraderBC5A4DecoderStepReset)
    (hlevel : level = true) (hdur : DURATION_DIFF duration 488 < 62) :
    feed_switch fw inst level duration bit =
      ({ inst with
         decoder := { parser_step := SchraderBC5A4DecoderStepCheckPreamble,
                      decode_data := 0, decode_count_bit := 0 }
         header_count := 0
         manchester_saved_state := ManchesterStateStart1 }, []) := by
  simp [feed_switch, hstep, hlevel, tpms_protocol_schrader_bc5a4_const, hdur]

theorem feed_switch_reset_idle (fw : Firmware) (inst : TPMSProtocolDecoderSchraderBC5A4)
    (level : Bool) (duration : Nat) (bit : Bool)
    (hstep : inst.decoder.parser_step = SchraderBC5A4DecoderStepReset)
    (hno : level = false ∨ 62 ≤ DURATION_DIFF duration 488) :
    feed_switch fw inst level duration bit = (inst, []) := by
  rcases hno with h | h
  · simp [feed_switch, hstep, h]
  · have h2 : ¬ DURATION_DIFF duration 488 < 62 := by omega
    simp [feed_switch, hstep, tpms_protocol_schrader_bc5a4_const, h2]

theorem feed_of_unrecognised (fw : Firmware) (inst : TPMSProtocolDecoderSchraderBC5A4)
    (level : Bool) (duration : Nat)
    (hev : level_and_duration_to_event level duration = ManchesterEventReset) :
    tpms_protocol_decoder_schrader_bc5a4_feed fw inst level duration =
      feed_switch fw (tpms_protocol_decoder_schrader_bc5a4_reset inst) level duration false := by
  by_cases hstep : inst.decoder.parser_step = SchraderBC5A4DecoderStepReset
  · have hre : tpms_protocol_decoder_schrader_bc5a4_reset inst = inst := by
      cases inst with
      | mk cb dec g ms hc =>
        cases dec with
        | mk st dd dc =>
          simp only at hstep
          subst hstep
          rfl
    rw [hre, feed_of_reset fw inst level duration hstep]
  · simp [tpms_protocol_decoder_schrader_bc5a4_feed, hstep, hev,
      tpms_protocol_decoder_schrader_bc5a4_reset]

theorem event_reset_iff (level : Bool) (duration : Nat) :
    level_and_duration_to_event level duration = ManchesterEventReset ↔
      ¬ DURATION_DIFF duration 244 < 62 ∧ ¬ DURATION_DIFF duration 123 < 62 := by
  unfold level_and_duration_to_event
  simp only [tpms_protocol_schrader_bc5a4_const]
  by_cases h1 : DURATION_DIFF duration 244 < 62
  · cases level <;> simp [h1]
  · by_cases h2 : DURATION_DIFF duration 123 < 62
    · cases level <;> simp [h1, h2]
    · simp [h1, h2]


/-! ## The accumulator -/

theorem add_bit_value (v : Nat) (b : Bool) (hv : v < 2 ^ 63) :
    ((v <<< 1) % 2 ^ 64) ||| b.toNat = 2 * v + b.toNat := by
  have hb : b.toNat < 2 ^ 1 := by cases b <;> simp
  have h1 : v <<< 1 = 2 ^ 1 * v := by rw [Nat.shiftLeft_eq, Nat.mul_comm]
  have h2 : 2 ^ 1 * v < 2 ^ 64 := by omega
  rw [h1, Nat.mod_eq_of_lt h2, ← Nat.mul_add_lt_is_or hb v]

theorem add_bit_of_lt (dec : SubGhzBlockDecoder) (b : Bool)
    (hc : dec.decode_count_bit < 42) (hv : dec.decode_data < 2 ^ dec.decode_count_bit) :
    subghz_protocol_blocks_add_bit dec b =
      { parser_step := dec.parser_step
        decode_data := 2 * dec.decode_data + b.toNat
        decode_count_bit := dec.decode_count_bit + 1 } := by
  have h63 : dec.decode_data < 2 ^ 63 :=
    lt_of_lt_of_le hv (Nat.pow_le_pow_right (by decide) (by omega))
  have hm : (dec.decode_count_bit + 1) % 2 ^ 8 = dec.decode_count_bit + 1 := by
    apply Nat.mod_eq_of_lt
    norm_num
    omega
  simp only [subghz_protocol_blocks_add_bit]
  rw [add_bit_value _ b h63, hm]

theorem two_mul_add_bit_lt (v c : Nat) (b : Bool) (hv : v < 2 ^ c) :
    2 * v + b.toNat < 2 ^ (c + 1) := by
  have hb : b.toNat ≤ 1 := by cases b <;> simp
  rw [Nat.pow_succ]
  omega

theorem check_parity_true (fw : Firmware) (inst : TPMSProtocolDecoderSchraderBC5A4) :
    tpms_protocol_schrader_bc5a4_check_parity fw inst = true := by
  unfold tpms_protocol_schrader_bc5a4_check_parity
  simp only [bne_iff_ne, ne_eq]
  intro h
  have h1 := congrArg (fun n => Nat.testBit n 0) h
  simp [Nat.testBit_or] at h1


/-! ## From edge events to delivered bits -/

theorem with_line_state_self (inst : TPMSProtocolDecoderSchraderBC5A4) :
    with_line_state inst inst.manchester_saved_state = inst := rfl

theorem with_line_state_twice (inst : TPMSProtocolDecoderSchraderBC5A4) (m n : ManchesterState) :
    with_line_state (with_line_state inst m) n = with_line_state inst n := rfl

theorem feed_switch_line_state (fw : Firmware) (inst : TPMSProtocolDecoderSchraderBC5A4)
    (m : ManchesterState) (level level2 : Bool) (duration duration2 : Nat) (bit : Bool)
    (hstep : inst.decoder.parser_step ≠ SchraderBC5A4DecoderStepReset) :
    feed_switch fw (with_line_state inst m) level duration bit =
      (with_line_state (feed_switch fw inst level2 duration2 bit).1 m,
        (feed_switch fw inst level2 duration2 bit).2) := by
  obtain ⟨cb, ⟨st, dd, dc⟩, g, ms, hc⟩ := inst
  cases st
  · exact absurd rfl hstep
  · simp only [feed_switch, with_line_state]
    split_ifs <;> rfl
  · simp only [feed_switch, with_line_state, tpms_protocol_schrader_bc5a4_check_parity]
    split_ifs <;> rfl
  · rfl
  · rfl

theorem recognised_not_start (e : EdgeEvent) (h : recognised e) :
    62 ≤ DURATION_DIFF e.duration 488 := by
  have h1 : ¬ (¬ DURATION_DIFF e.duration 244 < 62 ∧ ¬ DURATION_DIFF e.duration 123 < 62) :=
    fun hh => h ((event_reset_iff e.level e.duration).2 hh)
  have h2 := duration_diff_lt_iff e.duration 244 62
  have h3 := duration_diff_lt_iff e.duration 123 62
  have h4 := duration_diff_lt_iff e.duration 488 62
  by_contra hc
  have h5 : DURATION_DIFF e.duration 488 < 62 := by omega
  have h6 := h4.1 h5
  apply h1
  constructor
  · intro h7
    have := h2.1 h7
    omega
  · intro h7
    have := h3.1 h7
    omega

theorem feed_recognised_reset (fw : Firmware) (inst : TPMSProtocolDecoderSchraderBC5A4)
    (e : EdgeEvent) (he : recognised e)
    (hstep : inst.decoder.parser_step = SchraderBC5A4DecoderStepReset) :
    tpms_protocol_decoder_schrader_bc5a4_feed fw inst e.level e.duration = (inst, []) := by
  rw [feed_of_reset fw inst e.level e.duration hstep]
  exact feed_switch_reset_idle fw inst e.level e.duration false hstep
    (Or.inr (recognised_not_start e he))

theorem feed_recognised_active (fw : Firmware) (inst : TPMSProtocolDecoderSchraderBC5A4)
    (e : EdgeEvent) (he : recognised e)
    (hstep : inst.decoder.parser_step ≠ SchraderBC5A4DecoderStepReset) :
    tpms_protocol_decoder_schrader_bc5a4_feed fw inst e.level e.duration =
      if (fw.manchester_advance inst.manchester_saved_state
          (level_and_duration_to_event e.level e.duration)).1 then
        feed_switch fw
          (with_line_state inst (fw.manchester_advance inst.manchester_saved_state
            (level_and_duration_to_event e.level e.duration)).2.1)
          e.level e.duration
          (!(fw.manchester_advance inst.manchester_saved_state
            (level_and_duration_to_event e.level e.duration)).2.2)
      else
        (with_line_state inst (fw.manchester_advance inst.manchester_saved_state
          (level_and_duration_to_event e.level e.duration)).2.1, []) := by
  have he2 : level_and_duration_to_event e.level e.duration ≠ ManchesterEventReset := he
  simp only [tpms_protocol_decoder_schrader_bc5a4_feed, with_line_state]
  rw [if_pos hstep, if_neg he2]
  cases (fw.manchester_advance inst.manchester_saved_state
    (level_and_duration_to_event e.level e.duration)).1 <;> simp

theorem bit_run_reset (fw : Firmware) (inst : TPMSProtocolDecoderSchraderBC5A4)
    (bits : List Bool)
    (hstep : inst.decoder.parser_step = SchraderBC5A4DecoderStepReset) :
    bit_run fw inst bits = (inst, []) := by
  induction bits with
  | nil => rfl
  | cons b bs ih => simp [bit_run, bit_feed, hstep, ih]

theorem bit_feed_line_state (fw : Firmware) (inst : TPMSProtocolDecoderSchraderBC5A4)
    (m : ManchesterState) (bit : Bool) :
    bit_feed fw (with_line_state inst m) bit =
      (with_line_state (bit_feed fw inst bit).1 m, (bit_feed fw inst bit).2) := by
  by_cases hstep : inst.decoder.parser_step = SchraderBC5A4DecoderStepReset
  · have h2 : (with_line_state inst m).decoder.parser_step = SchraderBC5A4DecoderStepReset :=
      hstep
    simp [bit_feed, hstep, h2]
  · have h2 : (with_line_state inst m).decoder.parser_step ≠ SchraderBC5A4DecoderStepReset :=
      hstep
    simp only [bit_feed, if_neg hstep, if_neg h2]
    exact feed_switch_line_state fw inst m false false 0 0 bit hstep

theorem bit_run_line_state (fw : Firmware) (bits : List Bool) :
    ∀ (inst : TPMSProtocolDecoderSchraderBC5A4) (m : ManchesterState),
      bit_run fw (with_line_state inst m) bits =
        (with_line_state (bit_run fw inst bits).1 m, (bit_run fw inst bits).2) := by
  induction bits with
  | nil => intro inst m; rfl
  | cons b bs ih =>
    intro inst m
    simp only [bit_run]
    rw [bit_feed_line_state, ih]

/-- On recognised events `feed` does to every field but the line decoder state
what the delivered bits do through `bit_run`. -/
theorem feed_all_eq_bit_run (fw : Firmware) (es : List EdgeEvent) :
    ∀ (inst : TPMSProtocolDecoderSchraderBC5A4) (m : ManchesterState),
      (∀ e ∈ es, recognised e) →
      (inst.decoder.parser_step ≠ SchraderBC5A4DecoderStepReset →
        m = inst.manchester_saved_state) →
      ∃ m2, feed_all fw inst es =
        (with_line_state (bit_run fw inst (line_bits fw m es)).1 m2,
          (bit_run fw inst (line_bits fw m es)).2) := by
  induction es with
  | nil => intro inst m _ _; exact ⟨inst.manchester_saved_state, rfl⟩
  | cons e es ih =>
    intro inst m hes hm
    have he : recognised e := hes e (List.mem_cons_self e es)
    have hes2 : ∀ x ∈ es, recognised x := fun x hx => hes x (List.mem_cons_of_mem e hx)
    by_cases hstep : inst.decoder.parser_step = SchraderBC5A4DecoderStepReset
    · obtain ⟨m2, h2⟩ := ih inst inst.manchester_saved_state hes2 (fun _ => rfl)
      refine ⟨m2, ?_⟩
      simp only [feed_all, feed_recognised_reset fw inst e he hstep, bit_run_reset fw inst _ hstep]
      rw [h2, bit_run_reset fw inst _ hstep]
      rfl
    · have hm2 := hm hstep
      subst hm2
      simp only [feed_all, line_bits, feed_recognised_active fw inst e he hstep]
      by_cases hb : (fw.manchester_advance inst.manchester_saved_state
          (level_and_duration_to_event e.level e.duration)).1 = true
      · simp only [hb, if_true]
        rw [feed_switch_line_state fw inst _ e.level false e.duration 0 _ hstep]
        obtain ⟨m2, h2⟩ := ih (with_line_state (feed_switch fw inst false 0
          (!(fw.manchester_advance inst.manchester_saved_state
            (level_and_duration_to_event e.level e.duration)).2.2)).1
            (fw.manchester_advance inst.manchester_saved_state
              (level_and_duration_to_event e.level e.duration)).2.1)
          (fw.manchester_advance inst.manchester_saved_state
              (level_and_duration_to_event e.level e.duration)).2.1 hes2 (fun _ => rfl)
        refine ⟨m2, ?_⟩
        simp only [h2, bit_run, bit_feed, if_neg hstep, bit_run_line_state,
          with_line_state_twice]
      · simp only [hb]
        obtain ⟨m2, h2⟩ := ih (with_line_state inst
            (fw.manchester_advance inst.manchester_saved_state
              (level_and_duration_to_event e.level e.duration)).2.1)
          (fw.manchester_advance inst.manchester_saved_state
              (level_and_duration_to_event e.level e.duration)).2.1 hes2 (fun _ => rfl)
        refine ⟨m2, ?_⟩
        simp [h2, bit_run_line_state, with_line_state_twice]


/-! ## Delivered bits: preamble and payload -/

theorem bit_run_append (fw : Firmware) (xs ys : List Bool) :
    ∀ inst : TPMSProtocolDecoderSchraderBC5A4,
      bit_run fw inst (xs ++ ys) =
        ((bit_run fw (bit_run fw inst xs).1 ys).1,
          (bit_run fw inst xs).2 ++ (bit_run fw (bit_run fw inst xs).1 ys).2) := by
  induction xs with
  | nil => intro inst; simp [bit_run]
  | cons x xs ih =>
    intro inst
    show bit_run fw inst (x :: (xs ++ ys)) = _
    simp only [bit_run]
    rw [ih]
    simp only [List.append_assoc]

theorem feed_switch_data_more (fw : Firmware) (inst : TPMSProtocolDecoderSchraderBC5A4)
    (level : Bool) (duration : Nat) (bit : Bool)
    (hstep : inst.decoder.parser_step = SchraderBC5A4DecoderStepDecoderData)
    (hc : inst.decoder.decode_count_bit + 1 < 42)
    (hv : inst.decoder.decode_data < 2 ^ inst.decoder.decode_count_bit) :
    feed_switch fw inst level duration bit =
      ({ inst with
         decoder := { parser_step := SchraderBC5A4DecoderStepDecoderData,
                      decode_data := 2 * inst.decoder.decode_data + bit.toNat,
                      decode_count_bit := inst.decoder.decode_count_bit + 1 } }, []) := by
  have hadd := add_bit_of_lt inst.decoder bit (by omega) hv
  have hnot : ¬ inst.decoder.decode_count_bit + 1 ≥ 42 := by omega
  simp only [feed_switch, hstep, hadd, tpms_protocol_schrader_bc5a4_const]
  rw [if_neg hnot]

theorem feed_switch_data_last (fw : Firmware) (inst : TPMSProtocolDecoderSchraderBC5A4)
    (level : Bool) (duration : Nat) (bit : Bool)
    (hstep : inst.decoder.parser_step = SchraderBC5A4DecoderStepDecoderData)
    (hc : inst.decoder.decode_count_bit = 41)
    (hv : inst.decoder.decode_data < 2 ^ inst.decoder.decode_count_bit) :
    feed_switch fw inst level duration bit =
      ({ inst with
         decoder := { parser_step := SchraderBC5A4DecoderStepReset,
                      decode_data := 2 * inst.decoder.decode_data + bit.toNat,
                      decode_count_bit := 42 }
         generic := delivered_record inst (2 * inst.decoder.decode_data + bit.toNat) },
       if inst.callback then
         [delivered_record inst (2 * inst.decoder.decode_data + bit.toNat)] else []) := by
  have hadd := add_bit_of_lt inst.decoder bit (by omega) hv
  simp only [feed_switch, hstep, hadd, tpms_protocol_schrader_bc5a4_const, hc,
    check_parity_true, delivered_record]
  simp

theorem bit_run_payload (fw : Firmware) (bits : List Bool) :
    ∀ inst : TPMSProtocolDecoderSchraderBC5A4,
      inst.decoder.parser_step = SchraderBC5A4DecoderStepDecoderData →
      inst.decoder.decode_count_bit + bits.length < 42 →
      inst.decoder.decode_data < 2 ^ inst.decoder.decode_count_bit →
      bit_run fw inst bits =
        ({ inst with
           decoder := { parser_step := SchraderBC5A4DecoderStepDecoderData,
                        decode_data :=
                          bits.foldl (fun v b => 2 * v + b.toNat) inst.decoder.decode_data,
                        decode_count_bit := inst.decoder.decode_count_bit + bits.length } },
          []) ∧
      bits.foldl (fun v b => 2 * v + b.toNat) inst.decoder.decode_data <
        2 ^ (inst.decoder.decode_count_bit + bits.length) := by
  induction bits with
  | nil =>
    intro inst hstep _ hv
    refine ⟨?_, hv⟩
    obtain ⟨cb, ⟨st, dd, dc⟩, g, ms, hc⟩ := inst
    simp only at hstep
    subst hstep
    rfl
  | cons b bs ih =>
    intro inst hstep hc hv
    simp only [List.length_cons] at hc
    have h1 := feed_switch_data_more fw inst false 0 b hstep (by omega) hv
    have hne : inst.decoder.parser_step ≠ SchraderBC5A4DecoderStepReset := by
      rw [hstep]; decide
    have h2 := ih { inst with
         decoder := { parser_step := SchraderBC5A4DecoderStepDecoderData,
                      decode_data := 2 * inst.decoder.decode_data + b.toNat,
                      decode_count_bit := inst.decoder.decode_count_bit + 1 } } rfl
      (by simp only; omega) (two_mul_add_bit_lt _ _ b hv)
    simp only [bit_run, bit_feed, if_neg hne, h1, List.foldl_cons, List.length_cons]
    simp only at h2
    refine ⟨?_, ?_⟩
    · rw [h2.1]
      simp [Nat.add_assoc, Nat.add_comm 1]
    · have h3 := h2.2
      rw [Nat.add_assoc, Nat.add_comm 1] at h3
      exact h3


theorem bit_run_frame (fw : Firmware) (bits : List Bool) :
    ∀ inst : TPMSProtocolDecoderSchraderBC5A4,
      inst.decoder.parser_step = SchraderBC5A4DecoderStepDecoderData →
      inst.decoder.decode_count_bit < 42 →
      42 ≤ inst.decoder.decode_count_bit + bits.length →
      inst.decoder.decode_data < 2 ^ inst.decoder.decode_count_bit →
      bit_run fw inst bits =
        ({ inst with
           decoder := { parser_step := SchraderBC5A4DecoderStepReset,
                        decode_data := (bits.take (42 - inst.decoder.decode_count_bit)).foldl
                          (fun v b => 2 * v + b.toNat) inst.decoder.decode_data,
                        decode_count_bit := 42 }
           generic := delivered_record inst
             ((bits.take (42 - inst.decoder.decode_count_bit)).foldl
               (fun v b => 2 * v + b.toNat) inst.decoder.decode_data) },
         if inst.callback then
           [delivered_record inst ((bits.take (42 - inst.decoder.decode_count_bit)).foldl
             (fun v b => 2 * v + b.toNat) inst.decoder.decode_data)]
         else []) := by
  induction bits with
  | nil =>
    intro inst _ hc hlen _
    simp only [List.length_nil] at hlen
    omega
  | cons b bs ih =>
    intro inst hstep hc hlen hv
    simp only [List.length_cons] at hlen
    have hne : inst.decoder.parser_step ≠ SchraderBC5A4DecoderStepReset := by
      rw [hstep]; decide
    by_cases h41 : inst.decoder.decode_count_bit = 41
    · have h1 := feed_switch_data_last fw inst false 0 b hstep h41 hv
      simp only [bit_run, bit_feed, if_neg hne, h1]
      rw [bit_run_reset fw _ bs rfl]
      simp [h41]
    · have h1 := feed_switch_data_more fw inst false 0 b hstep (by omega) hv
      have h2 := ih { inst with
           decoder := { parser_step := SchraderBC5A4DecoderStepDecoderData,
                        decode_data := 2 * inst.decoder.decode_data + b.toNat,
                        decode_count_bit := inst.decoder.decode_count_bit + 1 } } rfl
        (by simp only; omega) (by simp only; omega) (two_mul_add_bit_lt _ _ b hv)
      have h3 : 42 - inst.decoder.decode_count_bit =
          (42 - (inst.decoder.decode_count_bit + 1)) + 1 := by omega
      simp only [bit_run, bit_feed, if_neg hne, h1]
      simp only at h2
      rw [h2, h3, List.take_succ_cons, List.foldl_cons]
      simp [delivered_record]

theorem bit_run_started_first_one (fw : Firmware) (inst : TPMSProtocolDecoderSchraderBC5A4)
    (rest : List Bool) :
    (bit_run fw (started inst) (true :: rest)).1.decoder.parser_step =
      SchraderBC5A4DecoderStepReset ∧
    (bit_run fw (started inst) (true :: rest)).2 = [] := by
  simp only [bit_run]
  rw [bit_run_reset fw _ rest (by simp [bit_feed, started, feed_switch])]
  simp [bit_feed, started, feed_switch]

theorem bit_run_started_second_one (fw : Firmware) (inst : TPMSProtocolDecoderSchraderBC5A4)
    (rest : List Bool) :
    (bit_run fw (started inst) (false :: true :: rest)).1.decoder.parser_step =
      SchraderBC5A4DecoderStepReset ∧
    (bit_run fw (started inst) (false :: true :: rest)).2 = [] := by
  simp only [bit_run]
  rw [bit_run_reset fw _ rest (by simp [bit_feed, started, feed_switch, PREAMBLE_BITS_LEN])]
  simp [bit_feed, started, feed_switch, PREAMBLE_BITS_LEN]

theorem bit_run_started_nil (fw : Firmware) (inst : TPMSProtocolDecoderSchraderBC5A4) :
    bit_run fw (started inst) [] = (started inst, []) := rfl

theorem bit_run_started_single (fw : Firmware) (inst : TPMSProtocolDecoderSchraderBC5A4) :
    bit_run fw (started inst) [false] = ({ started inst with header_count := 1 }, []) := by
  simp [bit_run, bit_feed, started, feed_switch, PREAMBLE_BITS_LEN]

theorem bit_run_started_preamble (fw : Firmware) (inst : TPMSProtocolDecoderSchraderBC5A4)
    (bits : List Bool) :
    bit_run fw (started inst) (false :: false :: bits) =
      bit_run fw { started inst with
        decoder := { parser_step := SchraderBC5A4DecoderStepDecoderData,
                     decode_data := 0, decode_count_bit := 0 }
        header_count := 2 } bits := by
  simp [bit_run, bit_feed, started, feed_switch, PREAMBLE_BITS_LEN]

theorem bit_run_started_incomplete (fw : Firmware) (inst : TPMSProtocolDecoderSchraderBC5A4)
    (bits : List Bool) (hlen : bits.length < 42) :
    bit_run fw (started inst) (false :: false :: bits) =
      ({ started inst with
         decoder := { parser_step := SchraderBC5A4DecoderStepDecoderData,
                      decode_data := bits_value bits, decode_count_bit := bits.length }
         header_count := 2 }, []) := by
  rw [bit_run_started_preamble]
  have h := (bit_run_payload fw bits { started inst with
        decoder := { parser_step := SchraderBC5A4DecoderStepDecoderData,
                     decode_data := 0, decode_count_bit := 0 }
        header_count := 2 } rfl (by simp only; omega) (by simp)).1
  rw [h]
  simp [bits_value]

theorem bit_run_started_frame (fw : Firmware) (inst : TPMSProtocolDecoderSchraderBC5A4)
    (bs extra : List Bool) (hlen : bs.length = 42) :
    bit_run fw (started inst) (false :: false :: (bs ++ extra)) =
      ({ started inst with
         decoder := { parser_step := SchraderBC5A4DecoderStepReset,
                      decode_data := bits_value bs, decode_count_bit := 42 }
         generic := delivered_record inst (bits_value bs)
         header_count := 2 },
       if inst.callback then [delivered_record inst (bits_value bs)] else []) := by
  rw [bit_run_started_preamble]
  have h := bit_run_frame fw (bs ++ extra) { started inst with
        decoder := { parser_step := SchraderBC5A4DecoderStepDecoderData,
                     decode_data := 0, decode_count_bit := 0 }
        header_count := 2 } rfl (by simp) (by simp only [List.length_append]; omega) (by simp)
  rw [h]
  have ht : List.take 42 (bs ++ extra) = bs := by
    rw [← hlen]
    exact List.take_left bs extra
  simp [bits_value, ht, delivered_record, started]


/-! ## Whole frames -/

theorem foldl_bits_eq_sum (bs : List Bool) :
    ∀ v : Nat, bs.foldl (fun v b => 2 * v + b.toNat) v =
      v * 2 ^ bs.length +
        ∑ i in Finset.range bs.length, (bs.getD (bs.length - 1 - i) false).toNat * 2 ^ i := by
  induction bs with
  | nil => intro v; simp
  | cons b bs ih =>
    intro v
    rw [List.foldl_cons, ih, List.length_cons, Finset.sum_range_succ]
    have hcongr : ∑ i in Finset.range bs.length,
          ((b :: bs).getD (bs.length + 1 - 1 - i) false).toNat * 2 ^ i =
        ∑ i in Finset.range bs.length, (bs.getD (bs.length - 1 - i) false).toNat * 2 ^ i := by
      apply Finset.sum_congr rfl
      intro i hi
      have hi2 : i < bs.length := Finset.mem_range.mp hi
      have h3 : bs.length + 1 - 1 - i = (bs.length - 1 - i) + 1 := by omega
      rw [h3, List.getD_cons_succ]
    have hlast : bs.length + 1 - 1 - bs.length = 0 := by omega
    rw [hcongr, hlast, List.getD_cons_zero, pow_succ]
    ring

theorem bits_value_eq_sum (bs : List Bool) (hlen : bs.length = 42) :
    bits_value bs = ∑ i in Finset.range 42, (bs.getD (41 - i) false).toNat * 2 ^ i := by
  have h := foldl_bits_eq_sum bs 0
  rw [hlen] at h
  simpa [bits_value] using h

theorem line_bits_take_prefix (fw : Firmware) (es : List EdgeEvent) :
    ∀ (st : ManchesterState) (k : Nat),
      line_bits fw st (es.take k) <+: line_bits fw st es := by
  induction es with
  | nil => intro st k; simp [line_bits]
  | cons e es ih =>
    intro st k
    cases k with
    | zero => simp [line_bits]
    | succ k =>
      simp only [List.take_succ_cons, line_bits]
      by_cases hb : (fw.manchester_advance st
          (level_and_duration_to_event e.level e.duration)).1 = true
      · simp only [hb, if_true]
        exact List.prefix_cons_inj _ |>.2 (ih _ k)
      · simp only [hb]
        exact ih _ k

theorem feed_all_start (fw : Firmware) (inst : TPMSProtocolDecoderSchraderBC5A4)
    (s : EdgeEvent) (es : List EdgeEvent)
    (hstep : inst.decoder.parser_step = SchraderBC5A4DecoderStepReset)
    (hs : start_pulse s) :
    feed_all fw inst (s :: es) = feed_all fw (started inst) es := by
  have h1 : tpms_protocol_decoder_schrader_bc5a4_feed fw inst s.level s.duration =
      (started inst, []) := by
    rw [feed_of_reset fw inst s.level s.duration hstep,
      feed_switch_reset_start fw inst s.level s.duration false hstep hs.1 hs.2]
    rfl
  simp [feed_all, h1]

theorem frame_run (fw : Firmware) (inst : TPMSProtocolDecoderSchraderBC5A4)
    (s : EdgeEvent) (es : List EdgeEvent)
    (hstep : inst.decoder.parser_step = SchraderBC5A4DecoderStepReset)
    (hs : start_pulse s) (hes : ∀ e ∈ es, recognised e) :
    ∃ m2, feed_all fw inst (s :: es) =
      (with_line_state
        (bit_run fw (started inst) (line_bits fw ManchesterStateStart1 es)).1 m2,
        (bit_run fw (started inst) (line_bits fw ManchesterStateStart1 es)).2) := by
  rw [feed_all_start fw inst s es hstep hs]
  exact feed_all_eq_bit_run fw es (started inst) ManchesterStateStart1 hes (fun _ => rfl)

theorem bit_run_started_short (fw : Firmware) (inst : TPMSProtocolDecoderSchraderBC5A4)
    (bs : List Bool) (n : Nat) (hn : n < 44) (hlen : bs.length = 42) :
    (bit_run fw (started inst) ((false :: false :: bs).take n)).2 = [] := by
  match n, hn with
  | 0, _ => rfl
  | 1, _ => simp [bit_run_started_single]
  | n + 2, hn =>
    have hl : (bs.take n).length < 42 := by
      rw [List.length_take]
      omega
    simp only [List.take_succ_cons]
    rw [bit_run_started_incomplete fw inst _ hl]


/-! ## The invariant of reachable instances -/

theorem reachable_inv_of_reset (inst : TPMSProtocolDecoderSchraderBC5A4)
    (hstep : inst.decoder.parser_step = SchraderBC5A4DecoderStepReset) :
    reachable_inv inst := by
  refine ⟨Or.inl hstep, ?_, ?_⟩ <;> intro h <;> rw [hstep] at h <;> cases h

theorem reachable_inv_with_line_state (inst : TPMSProtocolDecoderSchraderBC5A4)
    (m : ManchesterState) (h : reachable_inv inst) :
    reachable_inv (with_line_state inst m) := h

/-- The `switch` statement keeps the invariant, and every record it hands to
the callback is the analysed copy of an accumulator value below `2 ^ 42`. -/
theorem feed_switch_preserves_inv (fw : Firmware) (inst : TPMSProtocolDecoderSchraderBC5A4)
    (level : Bool) (duration : Nat) (bit : Bool) (hinv : reachable_inv inst) :
    reachable_inv (feed_switch fw inst level duration bit).1 ∧
    ∀ r ∈ (feed_switch fw inst level duration bit).2,
      ∃ (g : TPMSBlockGeneric) (d : Nat), d < 2 ^ 42 ∧
        r = tpms_protocol_schrader_bc5a4_analyze { g with data := d, data_count_bit := 42 } := by
  obtain ⟨hsteps, hcp, hdd⟩ := hinv
  rcases hsteps with hstep | hstep | hstep
  · by_cases hs : level = true ∧ DURATION_DIFF duration 488 < 62
    · rw [feed_switch_reset_start fw inst level duration bit hstep hs.1 hs.2]
      refine ⟨⟨Or.inr (Or.inl rfl), ?_, ?_⟩, ?_⟩
      · intro _; exact ⟨rfl, rfl, Nat.zero_lt_two⟩
      · intro h; cases h
      · intro r hr; cases hr
    · have hno : level = false ∨ 62 ≤ DURATION_DIFF duration 488 := by
        cases level
        · exact Or.inl rfl
        · right
          have : ¬ DURATION_DIFF duration 488 < 62 := fun h => hs ⟨rfl, h⟩
          omega
      rw [feed_switch_reset_idle fw inst level duration bit hstep hno]
      exact ⟨reachable_inv_of_reset inst hstep, fun r hr => by cases hr⟩
  · obtain ⟨hc0, hd0, hh⟩ := hcp hstep
    cases bit
    · have hm : (inst.header_count + 1) % 2 ^ 16 = inst.header_count + 1 := by
        apply Nat.mod_eq_of_lt
        norm_num
        omega
      have e1 : feed_switch fw inst level duration false =
          if inst.header_count + 1 = 2 then
            ({ inst with
               decoder := { inst.decoder with
                 parser_step := SchraderBC5A4DecoderStepDecoderData }
               header_count := inst.header_count + 1 }, [])
          else ({ inst with header_count := inst.header_count + 1 }, []) := by
        simp only [feed_switch, hstep, hm, PREAMBLE_BITS_LEN]
        simp
      rw [e1]
      split
      · rename_i h2
        refine ⟨⟨Or.inr (Or.inr rfl), ?_, ?_⟩, ?_⟩
        · intro h; cases h
        · intro _
          refine ⟨h2, ?_, ?_⟩
          · show inst.decoder.decode_count_bit < 42
            omega
          · show inst.decoder.decode_data < 2 ^ inst.decoder.decode_count_bit
            rw [hc0, hd0]
            decide
        · intro r hr; cases hr
      · rename_i h2
        refine ⟨⟨Or.inr (Or.inl hstep), ?_, ?_⟩, ?_⟩
        · intro _
          refine ⟨hc0, hd0, ?_⟩
          show inst.header_count + 1 < 2
          omega
        · intro h
          have h3 : inst.decoder.parser_step = SchraderBC5A4DecoderStepDecoderData := h
          rw [hstep] at h3
          cases h3
        · intro r hr; cases hr
    · have e1 : feed_switch fw inst level duration true =
          ({ inst with decoder := { inst.decoder with
              parser_step := SchraderBC5A4DecoderStepReset } }, []) := by
        simp [feed_switch, hstep]
      rw [e1]
      exact ⟨reachable_inv_of_reset _ rfl, fun r hr => by cases hr⟩
  · obtain ⟨hh, hc, hv⟩ := hdd hstep
    by_cases h41 : inst.decoder.decode_count_bit = 41
    · rw [feed_switch_data_last fw inst level duration bit hstep h41 hv]
      refine ⟨reachable_inv_of_reset _ rfl, ?_⟩
      intro r hr
      have hlt : 2 * inst.decoder.decode_data + bit.toNat < 2 ^ 42 := by
        have := two_mul_add_bit_lt _ _ bit hv
        rw [h41] at this
        exact this
      refine ⟨inst.generic, 2 * inst.decoder.decode_data + bit.toNat, hlt, ?_⟩
      by_cases hcb : inst.callback = true
      · simp only [hcb, if_true, List.mem_singleton] at hr
        rw [hr]
        rfl
      · simp [hcb] at hr
    · rw [feed_switch_data_more fw inst level duration bit hstep (by omega) hv]
      refine ⟨⟨Or.inr (Or.inr rfl), ?_, ?_⟩, fun r hr => by cases hr⟩
      · intro h; cases h
      · intro _
        refine ⟨hh, ?_, ?_⟩
        · simp only; omega
        · exact two_mul_add_bit_lt _ _ bit hv

theorem feed_preserves_inv (fw : Firmware) (inst : TPMSProtocolDecoderSchraderBC5A4)
    (level : Bool) (duration : Nat) (hinv : reachable_inv inst) :
    reachable_inv (tpms_protocol_decoder_schrader_bc5a4_feed fw inst level duration).1 ∧
    ∀ r ∈ (tpms_protocol_decoder_schrader_bc5a4_feed fw inst level duration).2,
      ∃ (g : TPMSBlockGeneric) (d : Nat), d < 2 ^ 42 ∧
        r = tpms_protocol_schrader_bc5a4_analyze { g with data := d, data_count_bit := 42 } := by
  by_cases hev : level_and_duration_to_event level duration = ManchesterEventReset
  · rw [feed_of_unrecognised fw inst level duration hev]
    exact feed_switch_preserves_inv fw _ level duration false (reachable_inv_of_reset _ rfl)
  · by_cases hstep : inst.decoder.parser_step = SchraderBC5A4DecoderStepReset
    · rw [feed_of_reset fw inst level duration hstep]
      exact feed_switch_preserves_inv fw inst level duration false hinv
    · have h := feed_recognised_active fw inst { level := level, duration := duration } hev hstep
      simp only at h
      rw [h]
      split
      · exact feed_switch_preserves_inv fw _ level duration _
          (reachable_inv_with_line_state inst _ hinv)
      · exact ⟨reachable_inv_with_line_state inst _ hinv, fun r hr => by cases hr⟩

theorem feed_all_preserves_inv (fw : Firmware) (es : List EdgeEvent) :
    ∀ inst : TPMSProtocolDecoderSchraderBC5A4, reachable_inv inst →
      reachable_inv (feed_all fw inst es).1 ∧
      ∀ r ∈ (feed_all fw inst es).2,
        ∃ (g : TPMSBlockGeneric) (d : Nat), d < 2 ^ 42 ∧
          r = tpms_protocol_schrader_bc5a4_analyze
            { g with data := d, data_count_bit := 42 } := by
  induction es with
  | nil => intro inst hinv; exact ⟨hinv, fun r hr => by cases hr⟩
  | cons e es ih =>
    intro inst hinv
    have h1 := feed_preserves_inv fw inst e.level e.duration hinv
    have h2 := ih _ h1.1
    refine ⟨h2.1, ?_⟩
    intro r hr
    simp only [feed_all, List.mem_append] at hr
    rcases hr with hr | hr
    · exact h1.2 r hr
    · exact h2.2 r hr

theorem analyze_id_of_lt (g : TPMSBlockGeneric) (h : g.data < 2 ^ 42) :
    (tpms_protocol_schrader_bc5a4_analyze g).id = (g.data >>> 18) &&& 0xFFFFFF ∧
    (tpms_protocol_schrader_bc5a4_analyze g).id < 2 ^ 24 := by
  have h1 : g.data >>> 18 < 2 ^ 24 := by
    rw [Nat.shiftRight_eq_div_pow]
    apply Nat.div_lt_of_lt_mul
    rw [← Nat.pow_add]
    exact h
  have h2 : (g.data >>> 18) &&& 0xFFFFFF = g.data >>> 18 := by
    have h3 : (0xFFFFFF : Nat) = 2 ^ 24 - 1 := by norm_num
    rw [h3, Nat.and_pow_two_sub_one_eq_mod, Nat.mod_eq_of_lt h1]
  have h4 : (g.data >>> 18) % 2 ^ 32 = g.data >>> 18 :=
    Nat.mod_eq_of_lt (lt_trans h1 (by norm_num))
  simp only [tpms_protocol_schrader_bc5a4_analyze]
  rw [h2]
  exact ⟨h4, by rw [h4]; exact h1⟩


theorem line_bits_take_exists (fw : Firmware) (es : List EdgeEvent) :
    ∀ (st : ManchesterState) (n : Nat), n ≤ (line_bits fw st es).length →
      ∃ k, line_bits fw st (es.take k) = (line_bits fw st es).take n := by
  induction es with
  | nil => intro st n _; exact ⟨0, by simp [line_bits]⟩
  | cons e es ih =>
    intro st n hn
    cases n with
    | zero => exact ⟨0, by simp [line_bits]⟩
    | succ n =>
      by_cases hb : (fw.manchester_advance st
          (level_and_duration_to_event e.level e.duration)).1 = true
      · simp only [line_bits, hb, if_true, List.length_cons] at hn
        obtain ⟨k, hk⟩ := ih (fw.manchester_advance st
          (level_and_duration_to_event e.level e.duration)).2.1 n (by omega)
        refine ⟨k + 1, ?_⟩
        simp only [List.take_succ_cons, line_bits, hb, if_true, hk]
      · simp only [line_bits, hb] at hn
        obtain ⟨k, hk⟩ := ih (fw.manchester_advance st
          (level_and_duration_to_event e.level e.duration)).2.1 (n + 1) hn
        refine ⟨k + 1, ?_⟩
        simp only [List.take_succ_cons, line_bits, hb, hk]
        rfl

theorem bit_run_started_data_step (fw : Firmware) (inst : TPMSProtocolDecoderSchraderBC5A4)
    (bits : List Bool)
    (h : (bit_run fw (started inst) bits).1.decoder.parser_step =
      SchraderBC5A4DecoderStepDecoderData) :
    ∃ rest, bits = false :: false :: rest := by
  match bits, h with
  | [], h => exact absurd h (by simp [bit_run, started])
  | [false], h =>
    rw [bit_run_started_single] at h
    exact absurd h (by simp [started])
  | true :: rest, h =>
    rw [(bit_run_started_first_one fw inst rest).1] at h
    cases h
  | false :: true :: rest, h =>
    rw [(bit_run_started_second_one fw inst rest).1] at h
    cases h
  | false :: false :: rest, _ => exact ⟨rest, rfl⟩

theorem feed_switch_preamble (fw : Firmware) (inst : TPMSProtocolDecoderSchraderBC5A4)
    (level : Bool) (duration : Nat) (bit : Bool)
    (hstep : inst.decoder.parser_step = SchraderBC5A4DecoderStepCheckPreamble) :
    feed_switch fw inst level duration bit =
      if bit = true then
        ({ inst with decoder := { inst.decoder with
            parser_step := SchraderBC5A4DecoderStepReset } }, [])
      else if (inst.header_count + 1) % 2 ^ 16 = 2 then
        ({ inst with
           decoder := { inst.decoder with parser_step := SchraderBC5A4DecoderStepDecoderData }
           header_count := (inst.header_count + 1) % 2 ^ 16 }, [])
      else ({ inst with header_count := (inst.header_count + 1) % 2 ^ 16 }, []) := by
  simp only [feed_switch, hstep, PREAMBLE_BITS_LEN]


/-! ## What one `feed` call can do to a reachable instance -/

/-- In step DecoderData, under the invariant, a recognised event for which the
line decoder delivers a bit appends that bit; the callback runs exactly when
the append completes 42 bits. -/
theorem feed_appends (fw : Firmware) (inst : TPMSProtocolDecoderSchraderBC5A4)
    (level : Bool) (duration : Nat) (hinv : reachable_inv inst)
    (hdd : inst.decoder.parser_step = SchraderBC5A4DecoderStepDecoderData)
    (hev : level_and_duration_to_event level duration ≠ ManchesterEventReset)
    (hb : (fw.manchester_advance inst.manchester_saved_state
      (level_and_duration_to_event level duration)).1 = true) :
    (tpms_protocol_decoder_schrader_bc5a4_feed fw inst level duration).1.decoder.decode_data =
      2 * inst.decoder.decode_data +
        (!(fw.manchester_advance inst.manchester_saved_state
          (level_and_duration_to_event level duration)).2.2).toNat ∧
    (tpms_protocol_decoder_schrader_bc5a4_feed fw inst level duration).1.decoder.decode_count_bit
      = inst.decoder.decode_count_bit + 1 ∧
    (inst.decoder.decode_count_bit + 1 < 42 →
      (tpms_protocol_decoder_schrader_bc5a4_feed fw inst level duration).2 = [] ∧
      (tpms_protocol_decoder_schrader_bc5a4_feed fw inst level duration).1.decoder.parser_step
        = SchraderBC5A4DecoderStepDecoderData) ∧
    (inst.decoder.decode_count_bit = 41 →
      (tpms_protocol_decoder_schrader_bc5a4_feed fw inst level duration).2 =
        (if inst.callback then
          [(tpms_protocol_decoder_schrader_bc5a4_feed fw inst level duration).1.generic]
         else []) ∧
      (tpms_protocol_decoder_schrader_bc5a4_feed fw inst level duration).1.decoder.parser_step
        = SchraderBC5A4DecoderStepReset) := by
  have hne : inst.decoder.parser_step ≠ SchraderBC5A4DecoderStepReset := by
    rw [hdd]; decide
  have h := feed_recognised_active fw inst { level := level, duration := duration } hev hne
  simp only [hb, if_true] at h
  obtain ⟨_, hc, hv⟩ := hinv.2.2 hdd
  rw [h]
  generalize (fw.manchester_advance inst.manchester_saved_state
    (level_and_duration_to_event level duration)).2.1 = m
  generalize (fw.manchester_advance inst.manchester_saved_state
    (level_and_duration_to_event level duration)).2.2 = b
  by_cases h41 : inst.decoder.decode_count_bit = 41
  · rw [feed_switch_data_last fw (with_line_state inst m) level duration (!b) hdd h41 hv]
    refine ⟨rfl, ?_, ?_, ?_⟩
    · show 42 = inst.decoder.decode_count_bit + 1
      omega
    · intro hlt; omega
    · intro _; exact ⟨rfl, rfl⟩
  · rw [feed_switch_data_more fw (with_line_state inst m) level duration (!b) hdd
      (show inst.decoder.decode_count_bit + 1 < 42 by omega) hv]
    refine ⟨rfl, rfl, ?_, ?_⟩
    · intro _; exact ⟨rfl, rfl⟩
    · intro h2; exact absurd h2 h41

/-- From an instance satisfying the invariant a `feed` call either leaves the
accumulator as it was and is silent, or accepts a start pulse, or appends one
payload bit in step DecoderData; only the append that completes 42 bits can
invoke the callback. -/
theorem feed_cases (fw : Firmware) (inst : TPMSProtocolDecoderSchraderBC5A4)
    (level : Bool) (duration : Nat) (hinv : reachable_inv inst) :
    ((tpms_protocol_decoder_schrader_bc5a4_feed fw inst level duration).1.decoder.decode_data =
        inst.decoder.decode_data ∧
      (tpms_protocol_decoder_schrader_bc5a4_feed fw inst level duration).1.decoder.decode_count_bit
        = inst.decoder.decode_count_bit ∧
      (tpms_protocol_decoder_schrader_bc5a4_feed fw inst level duration).2 = []) ∨
    (level_and_duration_to_event level duration = ManchesterEventReset ∧
      tpms_protocol_decoder_schrader_bc5a4_feed fw inst level duration = (started inst, [])) ∨
    (inst.decoder.parser_step = SchraderBC5A4DecoderStepDecoderData ∧
      level_and_duration_to_event level duration ≠ ManchesterEventReset ∧
      (fw.manchester_advance inst.manchester_saved_state
        (level_and_duration_to_event level duration)).1 = true ∧
      (tpms_protocol_decoder_schrader_bc5a4_feed fw inst level duration).1.decoder.decode_data =
        2 * inst.decoder.decode_data +
          (!(fw.manchester_advance inst.manchester_saved_state
            (level_and_duration_to_event level duration)).2.2).toNat ∧
      (tpms_protocol_decoder_schrader_bc5a4_feed fw inst level duration).1.decoder.decode_count_bit
        = inst.decoder.decode_count_bit + 1 ∧
      (inst.decoder.decode_count_bit + 1 < 42 →
        (tpms_protocol_decoder_schrader_bc5a4_feed fw inst level duration).2 = [] ∧
        (tpms_protocol_decoder_schrader_bc5a4_feed fw inst level duration).1.decoder.parser_step
          = SchraderBC5A4DecoderStepDecoderData) ∧
      (inst.decoder.decode_count_bit = 41 →
        (tpms_protocol_decoder_schrader_bc5a4_feed fw inst level duration).2 =
          (if inst.callback then
            [(tpms_protocol_decoder_schrader_bc5a4_feed fw inst level duration).1.generic]
           else []) ∧
        (tpms_protocol_decoder_schrader_bc5a4_feed fw inst level duration).1.decoder.parser_step
          = SchraderBC5A4DecoderStepReset)) := by
  by_cases hev : level_and_duration_to_event level duration = ManchesterEventReset
  · rw [feed_of_unrecognised fw inst level duration hev]
    by_cases hs : level = true ∧ DURATION_DIFF duration 488 < 62
    · right; left
      rw [feed_switch_reset_start fw _ level duration false rfl hs.1 hs.2]
      exact ⟨hev, rfl⟩
    · left
      have hno : level = false ∨ 62 ≤ DURATION_DIFF duration 488 := by
        cases level
        · exact Or.inl rfl
        · right
          have : ¬ DURATION_DIFF duration 488 < 62 := fun h => hs ⟨rfl, h⟩
          omega
      rw [feed_switch_reset_idle fw _ level duration false rfl hno]
      exact ⟨rfl, rfl, rfl⟩
  · by_cases hstep : inst.decoder.parser_step = SchraderBC5A4DecoderStepReset
    · left
      rw [feed_recognised_reset fw inst { level := level, duration := duration } hev hstep]
      exact ⟨rfl, rfl, rfl⟩
    · have h := feed_recognised_active fw inst { level := level, duration := duration } hev hstep
      simp only at h
      by_cases hb : (fw.manchester_advance inst.manchester_saved_state
          (level_and_duration_to_event level duration)).1 = true
      · rw [if_pos hb] at h
        rcases hinv.1 with h0 | h0 | h0
        · exact absurd h0 hstep
        · left
          rw [h]
          generalize (fw.manchester_advance inst.manchester_saved_state
            (level_and_duration_to_event level duration)).2.1 = m
          generalize (fw.manchester_advance inst.manchester_saved_state
            (level_and_duration_to_event level duration)).2.2 = b
          rw [feed_switch_preamble fw (with_line_state inst m) level duration (!b) h0]
          split_ifs <;> exact ⟨rfl, rfl, rfl⟩
        · exact Or.inr (Or.inr ⟨h0, hev, hb, feed_appends fw inst level duration hinv h0 hev hb⟩)
      · left
        rw [if_neg hb] at h
        rw [h]
        exact ⟨rfl, rfl, rfl⟩

theorem run_call_preserves_inv (fw : Firmware) (inst : TPMSProtocolDecoderSchraderBC5A4)
    (c : DecoderCall) (hinv : reachable_inv inst) :
    reachable_inv (run_call fw inst c).1 ∧
    ((run_call fw inst c).1.decoder.decode_count_bit ≤ 42 ∨
      (run_call fw inst c).1.decoder.decode_count_bit = inst.decoder.decode_count_bit) := by
  cases c with
  | reset => exact ⟨reachable_inv_of_reset _ rfl, Or.inr rfl⟩
  | feed level duration =>
    refine ⟨(feed_preserves_inv fw inst level duration hinv).1, ?_⟩
    show (tpms_protocol_decoder_schrader_bc5a4_feed fw inst level duration).1.decoder.decode_count_bit
        ≤ 42 ∨
      (tpms_protocol_decoder_schrader_bc5a4_feed fw inst level duration).1.decoder.decode_count_bit
        = inst.decoder.decode_count_bit
    rcases feed_cases fw inst level duration hinv with h | h | h
    · exact Or.inr h.2.1
    · left
      rw [h.2]
      exact Nat.zero_le 42
    · left
      have hc := (hinv.2.2 h.1).2.1
      rw [h.2.2.2.2.1]
      omega

theorem run_calls_preserve_inv (fw : Firmware) (calls : List DecoderCall) :
    ∀ inst : TPMSProtocolDecoderSchraderBC5A4, reachable_inv inst →
      reachable_inv (run_calls fw inst calls).1 ∧
      ((run_calls fw inst calls).1.decoder.decode_count_bit ≤ 42 ∨
        (run_calls fw inst calls).1.decoder.decode_count_bit = inst.decoder.decode_count_bit) := by
  induction calls with
  | nil => intro inst hinv; exact ⟨hinv, Or.inr rfl⟩
  | cons c cs ih =>
    intro inst hinv
    have h1 := run_call_preserves_inv fw inst c hinv
    have h2 := ih _ h1.1
    refine ⟨h2.1, ?_⟩
    show (run_calls fw (run_call fw inst c).1 cs).1.decoder.decode_count_bit ≤ 42 ∨
      (run_calls fw (run_call fw inst c).1 cs).1.decoder.decode_count_bit =
        inst.decoder.decode_count_bit
    rcases h2.2 with h | h
    · exact Or.inl h
    · rw [h]
      exact h1.2


/-! ## Decoding does not depend on stale contents -/

theorem feed_switch_same_decoding (fw : Firmware) (a b : TPMSProtocolDecoderSchraderBC5A4)
    (level : Bool) (duration : Nat) (bit : Bool) (h : same_decoding a b) :
    same_decoding (feed_switch fw a level duration bit).1 (feed_switch fw b level duration bit).1 ∧
    (feed_switch fw a level duration bit).2 = (feed_switch fw b level duration bit).2 := by
  obtain ⟨cb, ⟨st, dd, dc⟩, g, ms, hc⟩ := a
  obtain ⟨cb2, ⟨st2, dd2, dc2⟩, g2, ms2, hc2⟩ := b
  obtain ⟨h1, h2, h3, h4⟩ := h
  simp only at h1 h2 h3 h4
  cases h1
  cases h2
  cases h3
  cases h4
  cases st
  · simp only [feed_switch]
    split_ifs <;> exact ⟨⟨rfl, rfl, rfl, rfl⟩, rfl⟩
  · simp only [feed_switch]
    split_ifs <;> exact ⟨⟨rfl, rfl, rfl, rfl⟩, rfl⟩
  · simp only [feed_switch, tpms_protocol_schrader_bc5a4_check_parity,
      tpms_protocol_schrader_bc5a4_analyze]
    split_ifs <;> exact ⟨⟨rfl, rfl, rfl, rfl⟩, rfl⟩
  · exact ⟨⟨rfl, rfl, rfl, rfl⟩, rfl⟩
  · exact ⟨⟨rfl, rfl, rfl, rfl⟩, rfl⟩

theorem feed_same_decoding (fw : Firmware) (a b : TPMSProtocolDecoderSchraderBC5A4)
    (level : Bool) (duration : Nat) (h : same_decoding a b) :
    same_decoding (tpms_protocol_decoder_schrader_bc5a4_feed fw a level duration).1
      (tpms_protocol_decoder_schrader_bc5a4_feed fw b level duration).1 ∧
    (tpms_protocol_decoder_schrader_bc5a4_feed fw a level duration).2 =
      (tpms_protocol_decoder_schrader_bc5a4_feed fw b level duration).2 := by
  have hstep : a.decoder.parser_step = b.decoder.parser_step := by rw [h.2.1]
  have hms : a.manchester_saved_state = b.manchester_saved_state := h.2.2.2
  by_cases hev : level_and_duration_to_event level duration = ManchesterEventReset
  · rw [feed_of_unrecognised fw a level duration hev, feed_of_unrecognised fw b level duration hev]
    apply feed_switch_same_decoding
    exact ⟨h.1, by simp [tpms_protocol_decoder_schrader_bc5a4_reset, h.2.1], h.2.2.1, h.2.2.2⟩
  · by_cases ha : a.decoder.parser_step = SchraderBC5A4DecoderStepReset
    · have hb : b.decoder.parser_step = SchraderBC5A4DecoderStepReset := by rw [← hstep]; exact ha
      rw [feed_of_reset fw a level duration ha, feed_of_reset fw b level duration hb]
      exact feed_switch_same_decoding fw a b level duration false h
    · have hb : b.decoder.parser_step ≠ SchraderBC5A4DecoderStepReset := by rw [← hstep]; exact ha
      have h1 := feed_recognised_active fw a { level := level, duration := duration } hev ha
      have h2 := feed_recognised_active fw b { level := level, duration := duration } hev hb
      simp only at h1 h2
      rw [h1, h2, ← hms]
      split
      · apply feed_switch_same_decoding
        exact ⟨h.1, h.2.1, h.2.2.1, rfl⟩
      · exact ⟨⟨h.1, h.2.1, h.2.2.1, rfl⟩, rfl⟩

theorem feed_all_same_decoding (fw : Firmware) (es : List EdgeEvent) :
    ∀ a b : TPMSProtocolDecoderSchraderBC5A4, same_decoding a b →
      same_decoding (feed_all fw a es).1 (feed_all fw b es).1 ∧
      (feed_all fw a es).2 = (feed_all fw b es).2 := by
  induction es with
  | nil => intro a b h; exact ⟨h, rfl⟩
  | cons e es ih =>
    intro a b h
    have h1 := feed_same_decoding fw a b e.level e.duration h
    have h2 := ih _ _ h1.1
    refine ⟨h2.1, ?_⟩
    simp only [feed_all, h1.2, h2.2]

theorem feed_reset_not_start (fw : Firmware) (inst : TPMSProtocolDecoderSchraderBC5A4)
    (e : EdgeEvent) (hstep : inst.decoder.parser_step = SchraderBC5A4DecoderStepReset)
    (he : ¬ start_pulse e) :
    tpms_protocol_decoder_schrader_bc5a4_feed fw inst e.level e.duration = (inst, []) := by
  rw [feed_of_reset fw inst e.level e.duration hstep]
  apply feed_switch_reset_idle fw inst e.level e.duration false hstep
  by_cases hl : e.level = true
  · right
    have : ¬ DURATION_DIFF e.duration 488 < 62 := fun h => he ⟨hl, h⟩
    omega
  · left
    simpa using hl

/-- Two instances in step Reset with the same callback registration respond
alike to every edge sequence: same callback invocations, same step; without a
start pulse neither changes, and from the first start pulse on they agree on
everything the decoding reads. -/
theorem feed_all_from_reset_agree (fw : Firmware) (es : List EdgeEvent) :
    ∀ a b : TPMSProtocolDecoderSchraderBC5A4,
      a.decoder.parser_step = SchraderBC5A4DecoderStepReset →
      b.decoder.parser_step = SchraderBC5A4DecoderStepReset →
      a.callback = b.callback →
      (feed_all fw a es).2 = (feed_all fw b es).2 ∧
      (feed_all fw a es).1.decoder.parser_step = (feed_all fw b es).1.decoder.parser_step ∧
      ((∃ e ∈ es, start_pulse e) → same_decoding (feed_all fw a es).1 (feed_all fw b es).1) ∧
      ((∀ e ∈ es, ¬ start_pulse e) →
        feed_all fw a es = (a, []) ∧ feed_all fw b es = (b, [])) := by
  induction es with
  | nil =>
    intro a b ha hb _
    refine ⟨rfl, ?_, ?_, fun _ => ⟨rfl, rfl⟩⟩
    · show a.decoder.parser_step = b.decoder.parser_step
      rw [ha, hb]
    · rintro ⟨e, he, _⟩
      cases he
  | cons e es ih =>
    intro a b ha hb hcb
    by_cases hs : start_pulse e
    · have h1 := feed_all_start fw a e es ha hs
      have h2 := feed_all_start fw b e es hb hs
      have hsd : same_decoding (started a) (started b) := ⟨hcb, rfl, rfl, rfl⟩
      have h3 := feed_all_same_decoding fw es _ _ hsd
      rw [h1, h2]
      refine ⟨h3.2, by rw [h3.1.2.1], fun _ => h3.1, ?_⟩
      intro hno
      exact absurd hs (hno e (List.mem_cons_self e es))
    · have h1 := feed_reset_not_start fw a e ha hs
      have h2 := feed_reset_not_start fw b e hb hs
      have h3 := ih a b ha hb hcb
      have ea : feed_all fw a (e :: es) = feed_all fw a es := by
        simp [feed_all, h1]
      have eb : feed_all fw b (e :: es) = feed_all fw b es := by
        simp [feed_all, h2]
      rw [ea, eb]
      refine ⟨h3.1, h3.2.1, ?_, ?_⟩
      · rintro ⟨x, hx, hxs⟩
        rcases List.mem_cons.mp hx with hx | hx
        · rw [hx] at hxs
          exact absurd hxs hs
        · exact h3.2.2.1 ⟨x, hx, hxs⟩
      · intro hno
        exact h3.2.2.2 (fun x hx => hno x (List.mem_cons_of_mem e hx))

theorem feed_callback_kept (fw : Firmware) (inst : TPMSProtocolDecoderSchraderBC5A4)
    (level : Bool) (duration : Nat) :
    (tpms_protocol_decoder_schrader_bc5a4_feed fw inst level duration).1.callback =
      inst.callback := by
  have hsw : ∀ (i : TPMSProtocolDecoderSchraderBC5A4) (b : Bool),
      (feed_switch fw i level duration b).1.callback = i.callback := by
    intro i b
    obtain ⟨cb, ⟨st, dd, dc⟩, g, ms, hc⟩ := i
    cases st
    · simp only [feed_switch]
      split_ifs <;> rfl
    · simp only [feed_switch]
      split_ifs <;> rfl
    · simp only [feed_switch]
      split_ifs <;> rfl
    · rfl
    · rfl
  simp only [tpms_protocol_decoder_schrader_bc5a4_feed]
  split_ifs
  · rw [hsw]
  · rfl
  · rw [hsw]
  · rw [hsw]

theorem feed_all_callback_kept (fw : Firmware) (es : List EdgeEvent) :
    ∀ inst : TPMSProtocolDecoderSchraderBC5A4, (feed_all fw inst es).1.callback = inst.callback := by
  induction es with
  | nil => intro inst; rfl
  | cons e es ih =>
    intro inst
    show (feed_all fw (tpms_protocol_decoder_schrader_bc5a4_feed fw inst e.level e.duration).1
      es).1.callback = inst.callback
    rw [ih, feed_callback_kept]


/-! ## Pulse classifier -/

/-- C6, as amended: for every level and duration, a duration in the long
window gives the long symbol of that level; a duration in the short window
and not in the long window gives the short symbol of that level; a duration
outside both windows gives ManchesterEventReset. -/
theorem classifier_windows (level : Bool) (d : Nat) :
    (DURATION_DIFF d 244 < 62 →
      level_and_duration_to_event level d =
        if level then ManchesterEventLongHigh else ManchesterEventLongLow) ∧
    (DURATION_DIFF d 123 < 62 → ¬ DURATION_DIFF d 244 < 62 →
      level_and_duration_to_event level d =
        if level then ManchesterEventShortHigh else ManchesterEventShortLow) ∧
    (¬ DURATION_DIFF d 123 < 62 → ¬ DURATION_DIFF d 244 < 62 →
      level_and_duration_to_event level d = ManchesterEventReset) := by
  refine ⟨fun h => ?_, fun h1 h2 => ?_, fun h1 h2 => ?_⟩
  · simp [level_and_duration_to_event, tpms_protocol_schrader_bc5a4_const, h]
  · simp [level_and_duration_to_event, tpms_protocol_schrader_bc5a4_const, h1, h2]
  · simp [level_and_duration_to_event, tpms_protocol_schrader_bc5a4_const, h1, h2]

/-- Witness for C6 as amended: duration 244 is long, 123 is short, 400 is
unrecognised, at level high. -/
theorem classifier_windows_witness :
    level_and_duration_to_event true 244 = ManchesterEventLongHigh ∧
    level_and_duration_to_event true 123 = ManchesterEventShortHigh ∧
    level_and_duration_to_event true 400 = ManchesterEventReset :=
  ⟨(classifier_windows true 244).1 (by decide),
   (classifier_windows true 123).2.1 (by decide) (by decide),
   (classifier_windows true 400).2.2 (by decide) (by decide)⟩

/-- C6 as stated fails: duration 183 lies in the short window
(|183 - 123| = 60 < 62) but the classifier returns the long symbol, because
183 also lies in the long window and the long test comes first. -/
theorem classifier_short_window_counterexample :
    DURATION_DIFF 183 123 < 62 ∧
    level_and_duration_to_event true 183 ≠ ManchesterEventShortHigh ∧
    level_and_duration_to_event true 183 = ManchesterEventLongHigh := by
  decide

/-! ## Single `feed` calls in step Reset and on unrecognised durations -/

/-- C7, as amended: for every instance whose step is CheckPreamble or
DecoderData and every event whose duration is outside the short and the long
window, the callback is not invoked and the step after feed is Reset, unless
the event is a valid start pulse (level high, |duration - 488| < 62), in which
case the step after feed is CheckPreamble. -/
theorem out_of_tolerance_resets (fw : Firmware) (inst : TPMSProtocolDecoderSchraderBC5A4)
    (level : Bool) (duration : Nat)
    (_hstep : inst.decoder.parser_step = SchraderBC5A4DecoderStepCheckPreamble ∨
      inst.decoder.parser_step = SchraderBC5A4DecoderStepDecoderData)
    (hshort : ¬ DURATION_DIFF duration 123 < 62)
    (hlong : ¬ DURATION_DIFF duration 244 < 62) :
    (tpms_protocol_decoder_schrader_bc5a4_feed fw inst level duration).2 = [] ∧
    (¬ (level = true ∧ DURATION_DIFF duration 488 < 62) →
      tpms_protocol_decoder_schrader_bc5a4_feed fw inst level duration =
        (tpms_protocol_decoder_schrader_bc5a4_reset inst, [])) ∧
    (level = true ∧ DURATION_DIFF duration 488 < 62 →
      (tpms_protocol_decoder_schrader_bc5a4_feed fw inst level duration).1.decoder.parser_step =
        SchraderBC5A4DecoderStepCheckPreamble) := by
  have hev : level_and_duration_to_event level duration = ManchesterEventReset :=
    (event_reset_iff level duration).2 ⟨hlong, hshort⟩
  have hr : (tpms_protocol_decoder_schrader_bc5a4_reset inst).decoder.parser_step =
      SchraderBC5A4DecoderStepReset := rfl
  rw [feed_of_unrecognised fw inst level duration hev]
  by_cases hs : level = true ∧ DURATION_DIFF duration 488 < 62
  · rw [feed_switch_reset_start fw _ level duration false hr hs.1 hs.2]
    simp [hs]
  · have hno : level = false ∨ 62 ≤ DURATION_DIFF duration 488 := by
      cases level
      · exact Or.inl rfl
      · right
        have : ¬ DURATION_DIFF duration 488 < 62 := fun h => hs ⟨rfl, h⟩
        omega
    rw [feed_switch_reset_idle fw _ level duration false hr hno]
    simp [hs]

/-- Witness for C7 as amended: a mid-frame instance fed a high pulse of 400
microseconds (unrecognised, not a start pulse) and one of 488 microseconds. -/
theorem out_of_tolerance_resets_witness :
    (tpms_protocol_decoder_schrader_bc5a4_feed firmware_ref mid_frame_instance true 400 =
      (tpms_protocol_decoder_schrader_bc5a4_reset mid_frame_instance, [])) ∧
    (tpms_protocol_decoder_schrader_bc5a4_feed firmware_ref mid_frame_instance true
      488).1.decoder.parser_step = SchraderBC5A4DecoderStepCheckPreamble :=
  ⟨(out_of_tolerance_resets firmware_ref mid_frame_instance true 400 (Or.inr rfl)
      (by decide) (by decide)).2.1 (by decide),
   (out_of_tolerance_resets firmware_ref mid_frame_instance true 488 (Or.inr rfl)
      (by decide) (by decide)).2.2 (by decide)⟩

/-- C7 as stated fails: the mid-frame instance is in step DecoderData, the
high pulse of 488 microseconds matches neither the short nor the long window,
and the step after feed is CheckPreamble, not Reset. -/
theorem out_of_tolerance_counterexample :
    mid_frame_instance.decoder.parser_step = SchraderBC5A4DecoderStepDecoderData ∧
    ¬ DURATION_DIFF 488 123 < 62 ∧ ¬ DURATION_DIFF 488 244 < 62 ∧
    (tpms_protocol_decoder_schrader_bc5a4_feed firmware_ref mid_frame_instance true
      488).1.decoder.parser_step ≠ SchraderBC5A4DecoderStepReset := by
  decide

/-- C8: for every instance whose step is Reset and every sequence of events
each of which has level low or |duration - 488| >= 62, each single feed call
returns the instance unchanged (step Reset, every other field as before)
without invoking the callback, and so does the whole sequence. -/
theorem wrong_start_stays_in_reset (fw : Firmware) (inst : TPMSProtocolDecoderSchraderBC5A4)
    (es : List EdgeEvent)
    (hstep : inst.decoder.parser_step = SchraderBC5A4DecoderStepReset)
    (hes : ∀ e ∈ es, e.level = false ∨ 62 ≤ DURATION_DIFF e.duration 488) :
    (∀ e ∈ es, tpms_protocol_decoder_schrader_bc5a4_feed fw inst e.level e.duration =
      (inst, [])) ∧
    feed_all fw inst es = (inst, []) := by
  have single : ∀ e ∈ es, tpms_protocol_decoder_schrader_bc5a4_feed fw inst e.level e.duration =
      (inst, []) := by
    intro e he
    rw [feed_of_reset fw inst e.level e.duration hstep]
    exact feed_switch_reset_idle fw inst e.level e.duration false hstep (hes e he)
  refine ⟨single, ?_⟩
  induction es with
  | nil => rfl
  | cons e es ih =>
    have h1 := single e (List.mem_cons_self e es)
    have h2 := ih (fun x hx => hes x (List.mem_cons_of_mem e hx))
      (fun x hx => single x (List.mem_cons_of_mem e hx))
    simp [feed_all, h1, h2]

/-- Witness for C8: a low pulse of the start duration, a high pulse at the
edge of the tolerance (550 = 488 + 62) and a high long pulse leave a stale
Reset-step instance untouched. -/
theorem wrong_start_stays_in_reset_witness :
    feed_all firmware_ref stale_instance
      [{ level := false, duration := 488 }, { level := true, duration := 550 },
       { level := true, duration := 244 }] = (stale_instance, []) :=
  (wrong_start_stays_in_reset firmware_ref stale_instance
    [{ level := false, duration := 488 }, { level := true, duration := 550 },
     { level := true, duration := 244 }] rfl (by decide)).2

/-- C9: for every instance whose step is Reset and every event with level
high and |duration - 488| < 62, after feed the step is CheckPreamble,
decode_data = 0, decode_count_bit = 0, header_count = 0 and the line decoder
state is ManchesterStateStart1, whatever those fields held before; the generic
record is untouched and the callback is not invoked. -/
theorem start_condition (fw : Firmware) (inst : TPMSProtocolDecoderSchraderBC5A4)
    (level : Bool) (duration : Nat)
    (hstep : inst.decoder.parser_step = SchraderBC5A4DecoderStepReset)
    (hlevel : level = true) (hdur : DURATION_DIFF duration 488 < 62) :
    (tpms_protocol_decoder_schrader_bc5a4_feed fw inst level duration).1.decoder.parser_step =
      SchraderBC5A4DecoderStepCheckPreamble ∧
    (tpms_protocol_decoder_schrader_bc5a4_feed fw inst level duration).1.decoder.decode_data = 0 ∧
    (tpms_protocol_decoder_schrader_bc5a4_feed fw inst level duration).1.decoder.decode_count_bit
      = 0 ∧
    (tpms_protocol_decoder_schrader_bc5a4_feed fw inst level duration).1.header_count = 0 ∧
    (tpms_protocol_decoder_schrader_bc5a4_feed fw inst level duration).1.manchester_saved_state =
      ManchesterStateStart1 ∧
    (tpms_protocol_decoder_schrader_bc5a4_feed fw inst level duration).1.generic = inst.generic ∧
    (tpms_protocol_decoder_schrader_bc5a4_feed fw inst level duration).2 = [] := by
  rw [feed_of_reset fw inst level duration hstep,
    feed_switch_reset_start fw inst level duration false hstep hlevel hdur]
  simp

/-- Witness for C9: the stale Reset-step instance fed a high pulse of 430
microseconds. -/
theorem start_condition_witness :
    DURATION_DIFF 430 488 < 62 ∧
    (tpms_protocol_decoder_schrader_bc5a4_feed firmware_ref stale_instance true
      430).1.decoder.decode_data = 0 :=
  ⟨by decide, (start_condition firmware_ref stale_instance true 430 rfl rfl (by decide)).2.1⟩


/-! ## Frame acquisition, end to end -/

/-- C1: for every instance whose step is Reset and has a callback registered,
and every 42-bit sequence `bs` (most significant bit first), if a valid start
pulse `s` is fed and the following events `es` are all recognised pulses for
which the line decoder delivers, after inversion, exactly the bits 0, 0, `bs`,
then the callback is invoked exactly once over the whole sequence, with
generic.data = sum of b_i * 2^i and generic.data_count_bit = 42, and the step
is Reset afterwards; no prefix of the events that delivers fewer than all 44
bits invokes the callback, and a prefix that delivers the 44th bit already has
the one invocation and ends in step Reset. -/
theorem frame_acquisition (fw : Firmware) (inst : TPMSProtocolDecoderSchraderBC5A4)
    (s : EdgeEvent) (es : List EdgeEvent) (bs : List Bool)
    (hstep : inst.decoder.parser_step = SchraderBC5A4DecoderStepReset)
    (hcb : inst.callback = true)
    (hs : start_pulse s) (hes : ∀ e ∈ es, recognised e)
    (hbits : line_bits fw ManchesterStateStart1 es = false :: false :: bs)
    (hlen : bs.length = 42) :
    (feed_all fw inst (s :: es)).2 = [delivered_record inst (bits_value bs)] ∧
    (delivered_record inst (bits_value bs)).data =
      ∑ i in Finset.range 42, (bs.getD (41 - i) false).toNat * 2 ^ i ∧
    (delivered_record inst (bits_value bs)).data_count_bit = 42 ∧
    (feed_all fw inst (s :: es)).1.generic = delivered_record inst (bits_value bs) ∧
    (feed_all fw inst (s :: es)).1.decoder.parser_step = SchraderBC5A4DecoderStepReset ∧
    (∀ k, (line_bits fw ManchesterStateStart1 (es.take k)).length < 44 →
      (feed_all fw inst (s :: es.take k)).2 = []) ∧
    (∀ k, (line_bits fw ManchesterStateStart1 (es.take k)).length = 44 →
      (feed_all fw inst (s :: es.take k)).2 = [delivered_record inst (bits_value bs)] ∧
      (feed_all fw inst (s :: es.take k)).1.decoder.parser_step =
        SchraderBC5A4DecoderStepReset) := by
  have hfull : ∀ es2 : List EdgeEvent, (∀ e ∈ es2, recognised e) →
      line_bits fw ManchesterStateStart1 es2 = false :: false :: bs →
      (feed_all fw inst (s :: es2)).2 = [delivered_record inst (bits_value bs)] ∧
      (feed_all fw inst (s :: es2)).1.generic = delivered_record inst (bits_value bs) ∧
      (feed_all fw inst (s :: es2)).1.decoder.parser_step = SchraderBC5A4DecoderStepReset := by
    intro es2 hes2 hb2
    obtain ⟨m2, h⟩ := frame_run fw inst s es2 hstep hs hes2
    have hf := bit_run_started_frame fw inst bs [] hlen
    rw [List.append_nil] at hf
    rw [h, hb2, hf]
    simp [hcb, with_line_state]
  have htake : ∀ k, ∀ e ∈ es.take k, recognised e :=
    fun k e he => hes e (List.mem_of_mem_take he)
  refine ⟨(hfull es hes hbits).1, ?_, rfl, (hfull es hes hbits).2.1, (hfull es hes hbits).2.2,
    ?_, ?_⟩
  · exact bits_value_eq_sum bs hlen
  · intro k hk
    obtain ⟨m2, h⟩ := frame_run fw inst s (es.take k) hstep hs (htake k)
    have hp := line_bits_take_prefix fw es ManchesterStateStart1 k
    rw [hbits] at hp
    rw [h, List.prefix_iff_eq_take.mp hp]
    exact bit_run_started_short fw inst bs _ hk hlen
  · intro k hk
    have hp := line_bits_take_prefix fw es ManchesterStateStart1 k
    rw [hbits] at hp
    have heq : line_bits fw ManchesterStateStart1 (es.take k) = false :: false :: bs := by
      apply hp.eq_of_length
      rw [hk]
      simp [hlen]
    exact ⟨(hfull _ (htake k) heq).1, (hfull _ (htake k) heq).2.2⟩


set_option maxRecDepth 100000 in
/-- Witness for C1: the stale Reset-step instance, the nominal start pulse and
the edges of the frame with the example payload, decoded by the firmware line
decoder. -/
theorem frame_acquisition_witness :
    (feed_all firmware_ref stale_instance (nominal_start :: frame_edges example_payload)).2 =
      [delivered_record stale_instance (bits_value (payload_bits example_payload))] ∧
    (feed_all firmware_ref stale_instance
      (nominal_start :: frame_edges example_payload)).1.decoder.parser_step =
      SchraderBC5A4DecoderStepReset :=
  have h := frame_acquisition firmware_ref stale_instance nominal_start
    (frame_edges example_payload) (payload_bits example_payload) rfl rfl
    (by decide) (by decide) (by decide) (by decide)
  ⟨h.1, h.2.2.2.2.1⟩

set_option maxRecDepth 100000 in
/-- C2, the code at a failing input: the frame with the example payload and
the frame with the same payload after flipping bit 0 differ in exactly one
payload bit, and each of them, fed to a Reset-step instance after a start
pulse, reaches the callback. -/
theorem single_bit_flip_both_delivered :
    (feed_all firmware_ref stale_instance (nominal_start :: frame_edges example_payload)).2 =
      [delivered_record stale_instance example_payload] ∧
    (feed_all firmware_ref stale_instance
      (nominal_start :: frame_edges (example_payload ^^^ 2 ^ 0))).2 =
      [delivered_record stale_instance (example_payload ^^^ 2 ^ 0)] ∧
    example_payload ^^^ 2 ^ 0 ≠ example_payload := by
  decide

/-! ## Field extraction -/

/-- C3: every record that feed hands to the callback, on any edge sequence
fed to an instance whose step is Reset, carries data < 2^42 accumulated from
42 bits, and its id equals (data >> 18) & 0xFFFFFF, hence id < 2^24.  The
bound on data is needed: analyze only shifts, so for data = 2^42 it stores
the id 2^24, which the masked formula does not give. -/
theorem sensor_id_extraction (fw : Firmware) (inst : TPMSProtocolDecoderSchraderBC5A4)
    (es : List EdgeEvent) (r : TPMSBlockGeneric)
    (hstep : inst.decoder.parser_step = SchraderBC5A4DecoderStepReset)
    (hr : r ∈ (feed_all fw inst es).2) :
    r.data < 2 ^ 42 ∧ r.data_count_bit = 42 ∧
    r.id = (r.data >>> 18) &&& 0xFFFFFF ∧ r.id < 2 ^ 24 ∧
    (tpms_protocol_schrader_bc5a4_analyze { r with data := 2 ^ 42 }).id = 2 ^ 24 ∧
    ((2 ^ 42 >>> 18) &&& 0xFFFFFF) = 0 := by
  obtain ⟨g, d, hd, hrd⟩ :=
    (feed_all_preserves_inv fw es inst (reachable_inv_of_reset inst hstep)).2 r hr
  have hid := analyze_id_of_lt { g with data := d, data_count_bit := 42 } hd
  rw [← hrd] at hid
  have hdata : r.data = d := by rw [hrd]; rfl
  have hcount : r.data_count_bit = 42 := by rw [hrd]; rfl
  rw [hdata]
  refine ⟨hd, hcount, hid.1, hid.2, ?_, ?_⟩
  · show (2 ^ 42 >>> (42 - 24)) % 2 ^ 32 = 2 ^ 24
    decide
  · decide


set_option maxRecDepth 100000 in
/-- Witness for C3: the record delivered for the example payload. -/
theorem sensor_id_extraction_witness :
    (delivered_record stale_instance example_payload).id =
      ((delivered_record stale_instance example_payload).data >>> 18) &&& 0xFFFFFF ∧
    (delivered_record stale_instance example_payload).id < 2 ^ 24 :=
  have h := sensor_id_extraction firmware_ref stale_instance
    (nominal_start :: frame_edges example_payload)
    (delivered_record stale_instance example_payload) rfl (by decide)
  ⟨h.2.2.1, h.2.2.2.1⟩

/-- C5, the code at a failing input: for a record whose temperature byte is 0
the unsigned 64-bit subtraction wraps, and the value analyze stores is
2^64 - 50 = 18446744073709551566, which is not -50 and not in -50..205; the
same happens for the all-zero frame delivered through feed. -/
theorem temperature_wraps_below_bias :
    (tpms_protocol_schrader_bc5a4_analyze
      { data := 0, data_count_bit := 42, id := 0, battery_low := 0,
        pressure := 0, temperature := 0 }).temperature = 18446744073709551566 ∧
    ((tpms_protocol_schrader_bc5a4_analyze
      { data := 0, data_count_bit := 42, id := 0, battery_low := 0,
        pressure := 0, temperature := 0 }).temperature : Int) ≠ ((0 &&& 0xFF : Nat) : Int) - 50 ∧
    ¬ ((tpms_protocol_schrader_bc5a4_analyze
      { data := 0, data_count_bit := 42, id := 0, battery_low := 0,
        pressure := 0, temperature := 0 }).temperature : Int) ≤ 205 ∧
    (delivered_record stale_instance 0).temperature = 2 ^ 64 - 50 := by
  decide


/-! ## Preamble -/

/-- C10: for every instance whose step is CheckPreamble, when a feed call
delivers a bit (line decoder output after inversion), the callback is not
invoked, a bit equal to 1 sets the step to Reset, and a bit equal to 0
increments header_count (a 16-bit counter) and moves to DecoderData exactly
when header_count becomes 2, staying in CheckPreamble otherwise.  Hence after
a start pulse accepted in step Reset and followed by recognised events, the
machine is in DecoderData after some prefix of the events if and only if the
first two delivered bits are both 0, and at the prefix that delivers exactly
those two bits it is in DecoderData with decode_data = 0 and
decode_count_bit = 0. -/
theorem preamble_check (fw : Firmware) (inst : TPMSProtocolDecoderSchraderBC5A4)
    (e : EdgeEvent) (inst0 : TPMSProtocolDecoderSchraderBC5A4) (s : EdgeEvent)
    (es : List EdgeEvent)
    (hstep : inst.decoder.parser_step = SchraderBC5A4DecoderStepCheckPreamble)
    (he : recognised e)
    (hbit : (fw.manchester_advance inst.manchester_saved_state
      (level_and_duration_to_event e.level e.duration)).1 = true)
    (hstep0 : inst0.decoder.parser_step = SchraderBC5A4DecoderStepReset)
    (hs : start_pulse s) (hes : ∀ x ∈ es, recognised x) :
    (tpms_protocol_decoder_schrader_bc5a4_feed fw inst e.level e.duration).2 = [] ∧
    ((!(fw.manchester_advance inst.manchester_saved_state
        (level_and_duration_to_event e.level e.duration)).2.2) = true →
      (tpms_protocol_decoder_schrader_bc5a4_feed fw inst e.level e.duration).1.decoder.parser_step
        = SchraderBC5A4DecoderStepReset) ∧
    ((!(fw.manchester_advance inst.manchester_saved_state
        (level_and_duration_to_event e.level e.duration)).2.2) = false →
      (tpms_protocol_decoder_schrader_bc5a4_feed fw inst e.level e.duration).1.header_count =
        (inst.header_count + 1) % 2 ^ 16 ∧
      ((inst.header_count + 1) % 2 ^ 16 = 2 →
        (tpms_protocol_decoder_schrader_bc5a4_feed fw inst e.level
          e.duration).1.decoder.parser_step = SchraderBC5A4DecoderStepDecoderData) ∧
      ((inst.header_count + 1) % 2 ^ 16 ≠ 2 →
        (tpms_protocol_decoder_schrader_bc5a4_feed fw inst e.level
          e.duration).1.decoder.parser_step = SchraderBC5A4DecoderStepCheckPreamble)) ∧
    ((∃ k, (feed_all fw inst0 (s :: es.take k)).1.decoder.parser_step =
        SchraderBC5A4DecoderStepDecoderData) ↔
      ∃ rest, line_bits fw ManchesterStateStart1 es = false :: false :: rest) ∧
    (∀ k, line_bits fw ManchesterStateStart1 (es.take k) = [false, false] →
      (feed_all fw inst0 (s :: es.take k)).1.decoder.parser_step =
        SchraderBC5A4DecoderStepDecoderData ∧
      (feed_all fw inst0 (s :: es.take k)).1.decoder.decode_data = 0 ∧
      (feed_all fw inst0 (s :: es.take k)).1.decoder.decode_count_bit = 0) := by
  have hne : inst.decoder.parser_step ≠ SchraderBC5A4DecoderStepReset := by
    rw [hstep]; decide
  have hfeed := feed_recognised_active fw inst e he hne
  rw [if_pos hbit] at hfeed
  have hsw := feed_switch_preamble fw
    (with_line_state inst (fw.manchester_advance inst.manchester_saved_state
      (level_and_duration_to_event e.level e.duration)).2.1) e.level e.duration
    (!(fw.manchester_advance inst.manchester_saved_state
      (level_and_duration_to_event e.level e.duration)).2.2) hstep
  rw [hsw] at hfeed
  simp only [with_line_state] at hfeed
  have htake : ∀ k, ∀ x ∈ es.take k, recognised x :=
    fun k x hx => hes x (List.mem_of_mem_take hx)
  have hentry : ∀ k, line_bits fw ManchesterStateStart1 (es.take k) = [false, false] →
      (feed_all fw inst0 (s :: es.take k)).1.decoder.parser_step =
        SchraderBC5A4DecoderStepDecoderData ∧
      (feed_all fw inst0 (s :: es.take k)).1.decoder.decode_data = 0 ∧
      (feed_all fw inst0 (s :: es.take k)).1.decoder.decode_count_bit = 0 := by
    intro k hk
    obtain ⟨m2, h⟩ := frame_run fw inst0 s (es.take k) hstep0 hs (htake k)
    rw [h, hk, bit_run_started_incomplete fw inst0 [] (by decide)]
    exact ⟨rfl, rfl, rfl⟩
  refine ⟨?_, ?_, ?_, ⟨?_, ?_⟩, hentry⟩
  · rw [hfeed]
    split_ifs <;> rfl
  · intro hb
    rw [hfeed, if_pos hb]
  · intro hb
    have hb2 : ¬ (!(fw.manchester_advance inst.manchester_saved_state
        (level_and_duration_to_event e.level e.duration)).2.2) = true := by
      rw [hb]; decide
    rw [hfeed, if_neg hb2]
    refine ⟨?_, ?_, ?_⟩
    · split_ifs <;> rfl
    · intro h2
      rw [if_pos h2]
    · intro h2
      rw [if_neg h2]
      exact hstep
  · rintro ⟨k, hk⟩
    obtain ⟨m2, h⟩ := frame_run fw inst0 s (es.take k) hstep0 hs (htake k)
    rw [h] at hk
    obtain ⟨rest, hrest⟩ := bit_run_started_data_step fw inst0 _ hk
    have hp := line_bits_take_prefix fw es ManchesterStateStart1 k
    rw [hrest] at hp
    obtain ⟨t, ht⟩ := hp
    exact ⟨rest ++ t, by rw [← ht]; rfl⟩
  · rintro ⟨rest, hrest⟩
    obtain ⟨k, hk⟩ := line_bits_take_exists fw es ManchesterStateStart1 2
      (by rw [hrest]; simp)
    rw [hrest] at hk
    exact ⟨k, (hentry k hk).1⟩

set_option maxRecDepth 100000 in
/-- Witness for C10: an instance that has just accepted a start pulse is fed
the short low pulse that delivers the first preamble bit; and after the first
three edges of the example frame, which deliver the two preamble bits, the
stale instance is in DecoderData with an empty accumulator. -/
theorem preamble_check_witness :
    (tpms_protocol_decoder_schrader_bc5a4_feed firmware_ref (started stale_instance) false
      123).1.header_count = (0 + 1) % 2 ^ 16 ∧
    (feed_all firmware_ref stale_instance
      (nominal_start :: (frame_edges example_payload).take 3)).1.decoder.parser_step =
        SchraderBC5A4DecoderStepDecoderData ∧
    (feed_all firmware_ref stale_instance
      (nominal_start :: (frame_edges example_payload).take 3)).1.decoder.decode_data = 0 :=
  have h := preamble_check firmware_ref (started stale_instance)
    { level := false, duration := 123 } stale_instance nominal_start
    (frame_edges example_payload) rfl (by decide) (by decide) rfl (by decide) (by decide)
  ⟨(h.2.2.1 (by decide)).1, (h.2.2.2.2 3 (by decide)).1, (h.2.2.2.2 3 (by decide)).2.1⟩

/-! ## Suspension, exact classifier partition, re-acquisition -/

/-- C17: for every instance whose step is CheckPreamble or DecoderData and
every recognised event for which the line decoder reports that no bit is
available, feed returns the instance with only manchester_saved_state
replaced by the state the line decoder wrote; step, decode_data,
decode_count_bit, header_count, the generic record and the callback
registration are unchanged and the callback is not invoked.  The line decoder
is arbitrary. -/
theorem suspension_contract (fw : Firmware) (inst : TPMSProtocolDecoderSchraderBC5A4)
    (level : Bool) (duration : Nat)
    (hstep : inst.decoder.parser_step = SchraderBC5A4DecoderStepCheckPreamble ∨
      inst.decoder.parser_step = SchraderBC5A4DecoderStepDecoderData)
    (hev : level_and_duration_to_event level duration ≠ ManchesterEventReset)
    (hno : (fw.manchester_advance inst.manchester_saved_state
      (level_and_duration_to_event level duration)).1 = false) :
    tpms_protocol_decoder_schrader_bc5a4_feed fw inst level duration =
      ({ inst with manchester_saved_state :=
          (fw.manchester_advance inst.manchester_saved_state
            (level_and_duration_to_event level duration)).2.1 }, []) ∧
    (tpms_protocol_decoder_schrader_bc5a4_feed fw inst level duration).1.decoder = inst.decoder ∧
    (tpms_protocol_decoder_schrader_bc5a4_feed fw inst level duration).1.header_count =
      inst.header_count ∧
    (tpms_protocol_decoder_schrader_bc5a4_feed fw inst level duration).1.generic = inst.generic ∧
    (tpms_protocol_decoder_schrader_bc5a4_feed fw inst level duration).1.callback =
      inst.callback ∧
    (tpms_protocol_decoder_schrader_bc5a4_feed fw inst level duration).2 = [] := by
  have hne : inst.decoder.parser_step ≠ SchraderBC5A4DecoderStepReset := by
    rcases hstep with h | h <;> rw [h] <;> decide
  have h := feed_recognised_active fw inst { level := level, duration := duration } hev hne
  simp only [hno] at h
  rw [h]
  exact ⟨rfl, rfl, rfl, rfl, rfl, rfl⟩

/-- Witness for C17: the mid-frame instance (line state Mid1) fed a short high
pulse, for which the firmware line decoder has no bit yet. -/
theorem suspension_contract_witness :
    tpms_protocol_decoder_schrader_bc5a4_feed firmware_ref mid_frame_instance true 123 =
      ({ mid_frame_instance with manchester_saved_state := ManchesterStateStart1 }, []) :=
  (suspension_contract firmware_ref mid_frame_instance true 123 (Or.inr rfl)
    (by decide) (by decide)).1

/-- C18: the exact partition computed by level_and_duration_to_event: the
result is a long symbol if and only if 183 <= d <= 305, a short symbol if and
only if 62 <= d <= 182, and ManchesterEventReset if and only if d <= 61 or
d >= 306; the long test wins where both windows hold (d = 183, 184), and a
result other than Reset has the polarity of the input level. -/
theorem classifier_partition (level : Bool) (d : Nat) :
    ((level_and_duration_to_event level d = ManchesterEventLongHigh ∨
        level_and_duration_to_event level d = ManchesterEventLongLow) ↔
      183 ≤ d ∧ d ≤ 305) ∧
    ((level_and_duration_to_event level d = ManchesterEventShortHigh ∨
        level_and_duration_to_event level d = ManchesterEventShortLow) ↔
      62 ≤ d ∧ d ≤ 182) ∧
    (level_and_duration_to_event level d = ManchesterEventReset ↔ d ≤ 61 ∨ 306 ≤ d) ∧
    ((DURATION_DIFF d 123 < 62 ∧ DURATION_DIFF d 244 < 62) ↔ (d = 183 ∨ d = 184)) ∧
    ((level_and_duration_to_event level d = ManchesterEventLongHigh ∨
        level_and_duration_to_event level d = ManchesterEventShortHigh) → level = true) ∧
    ((level_and_duration_to_event level d = ManchesterEventLongLow ∨
        level_and_duration_to_event level d = ManchesterEventShortLow) → level = false) := by
  have hl := duration_diff_lt_iff d 244 62
  have hs := duration_diff_lt_iff d 123 62
  have hwin : (DURATION_DIFF d 123 < 62 ∧ DURATION_DIFF d 244 < 62) ↔ (d = 183 ∨ d = 184) := by
    rw [hl, hs]
    omega
  by_cases h1 : DURATION_DIFF d 244 < 62
  · have e1 : level_and_duration_to_event level d =
        if level then ManchesterEventLongHigh else ManchesterEventLongLow := by
      simp [level_and_duration_to_event, tpms_protocol_schrader_bc5a4_const, h1]
    have hd := hl.1 h1
    cases level <;> simp [e1, hwin] <;> omega
  · by_cases h2 : DURATION_DIFF d 123 < 62
    · have e1 : level_and_duration_to_event level d =
          if level then ManchesterEventShortHigh else ManchesterEventShortLow := by
        simp [level_and_duration_to_event, tpms_protocol_schrader_bc5a4_const, h1, h2]
      have hd := hs.1 h2
      have hd2 : ¬ (d < 244 + 62 ∧ 244 < d + 62) := fun hh => h1 (hl.2 hh)
      cases level <;> simp [e1, hwin] <;> omega
    · have e1 : level_and_duration_to_event level d = ManchesterEventReset := by
        simp [level_and_duration_to_event, tpms_protocol_schrader_bc5a4_const, h1, h2]
      have hd1 : ¬ (d < 123 + 62 ∧ 123 < d + 62) := fun hh => h2 (hs.2 hh)
      have hd2 : ¬ (d < 244 + 62 ∧ 244 < d + 62) := fun hh => h1 (hl.2 hh)
      simp [e1, hwin]
      omega

/-- C19: for every instance, in whatever step and with whatever accumulated
bits, and every event with level high and |duration - 488| < 62, the pulse
classifier returns ManchesterEventReset and the same feed call ends in step
CheckPreamble with decode_data = 0, decode_count_bit = 0, header_count = 0
and line decoder state ManchesterStateStart1, the generic record untouched,
without invoking the callback. -/
theorem start_pulse_reacquires (fw : Firmware) (inst : TPMSProtocolDecoderSchraderBC5A4)
    (level : Bool) (duration : Nat)
    (hlevel : level = true) (hdur : DURATION_DIFF duration 488 < 62) :
    level_and_duration_to_event level duration = ManchesterEventReset ∧
    tpms_protocol_decoder_schrader_bc5a4_feed fw inst level duration = (started inst, []) ∧
    (started inst).decoder.parser_step = SchraderBC5A4DecoderStepCheckPreamble ∧
    (started inst).decoder.decode_data = 0 ∧
    (started inst).decoder.decode_count_bit = 0 ∧
    (started inst).header_count = 0 ∧
    (started inst).manchester_saved_state = ManchesterStateStart1 ∧
    (started inst).generic = inst.generic := by
  have h4 := (duration_diff_lt_iff duration 488 62).1 hdur
  have hev : level_and_duration_to_event level duration = ManchesterEventReset := by
    rw [event_reset_iff, duration_diff_lt_iff, duration_diff_lt_iff]
    omega
  refine ⟨hev, ?_, rfl, rfl, rfl, rfl, rfl, rfl⟩
  rw [feed_of_unrecognised fw inst level duration hev,
    feed_switch_reset_start fw _ level duration false rfl hlevel hdur]
  rfl

/-- Witness for C19: the mid-frame instance, with seven payload bits
accumulated, fed the nominal start pulse. -/
theorem start_pulse_reacquires_witness :
    tpms_protocol_decoder_schrader_bc5a4_feed firmware_ref mid_frame_instance true 488 =
      (started mid_frame_instance, []) :=
  (start_pulse_reacquires firmware_ref mid_frame_instance true 488 rfl (by decide)).2.1


/-- Witness for C18: duration 183 at level low is long, 182 is short, 61 and
306 are unrecognised. -/
theorem classifier_partition_witness :
    level_and_duration_to_event false 183 = ManchesterEventLongLow ∧
    level_and_duration_to_event false 182 = ManchesterEventShortLow ∧
    level_and_duration_to_event false 61 = ManchesterEventReset ∧
    level_and_duration_to_event false 306 = ManchesterEventReset :=
  ⟨((classifier_partition false 183).1.2 (by decide)).resolve_left (by decide),
   ((classifier_partition false 182).2.1.2 (by decide)).resolve_left (by decide),
   (classifier_partition false 61).2.2.1.2 (by decide),
   (classifier_partition false 306).2.2.1.2 (by decide)⟩

/-! ## The validator and the hash length -/

/-- C15: tpms_protocol_schrader_bc5a4_check_parity returns true for every
decode_data and decode_count_bit, whatever the parity routine returns; so a
feed call in step DecoderData that delivers a bit and brings the count to at
least 42 never takes the drop branch: it copies the accumulator into the
generic record, analyses it, sets the step to Reset and, when a callback is
registered, invokes it once with that record. -/
theorem validator_always_accepts (fw : Firmware) (inst : TPMSProtocolDecoderSchraderBC5A4)
    (level : Bool) (duration : Nat)
    (hstep : inst.decoder.parser_step = SchraderBC5A4DecoderStepDecoderData)
    (hev : level_and_duration_to_event level duration ≠ ManchesterEventReset)
    (hbit : (fw.manchester_advance inst.manchester_saved_state
      (level_and_duration_to_event level duration)).1 = true)
    (hfull : 42 ≤ (subghz_protocol_blocks_add_bit inst.decoder
      (!(fw.manchester_advance inst.manchester_saved_state
        (level_and_duration_to_event level duration)).2.2)).decode_count_bit) :
    (∀ (fw2 : Firmware) (inst2 : TPMSProtocolDecoderSchraderBC5A4),
      tpms_protocol_schrader_bc5a4_check_parity fw2 inst2 = true) ∧
    (tpms_protocol_decoder_schrader_bc5a4_feed fw inst level duration).1.generic =
      tpms_protocol_schrader_bc5a4_analyze
        { inst.generic with
          data := (subghz_protocol_blocks_add_bit inst.decoder
            (!(fw.manchester_advance inst.manchester_saved_state
              (level_and_duration_to_event level duration)).2.2)).decode_data
          data_count_bit := (subghz_protocol_blocks_add_bit inst.decoder
            (!(fw.manchester_advance inst.manchester_saved_state
              (level_and_duration_to_event level duration)).2.2)).decode_count_bit } ∧
    (tpms_protocol_decoder_schrader_bc5a4_feed fw inst level duration).1.decoder.parser_step =
      SchraderBC5A4DecoderStepReset ∧
    (tpms_protocol_decoder_schrader_bc5a4_feed fw inst level duration).2 =
      (if inst.callback then
        [(tpms_protocol_decoder_schrader_bc5a4_feed fw inst level duration).1.generic]
       else []) := by
  have hne : inst.decoder.parser_step ≠ SchraderBC5A4DecoderStepReset := by
    rw [hstep]; decide
  have h := feed_recognised_active fw inst { level := level, duration := duration } hev hne
  simp only [hbit, if_true] at h
  have hsw : ∀ (m : ManchesterState) (b : Bool),
      42 ≤ (subghz_protocol_blocks_add_bit inst.decoder b).decode_count_bit →
      feed_switch fw (with_line_state inst m) level duration b =
        ({ with_line_state inst m with
           decoder := { subghz_protocol_blocks_add_bit inst.decoder b with
             parser_step := SchraderBC5A4DecoderStepReset }
           generic := tpms_protocol_schrader_bc5a4_analyze
             { inst.generic with
               data := (subghz_protocol_blocks_add_bit inst.decoder b).decode_data
               data_count_bit :=
                 (subghz_protocol_blocks_add_bit inst.decoder b).decode_count_bit } },
         if inst.callback then
           [tpms_protocol_schrader_bc5a4_analyze
             { inst.generic with
               data := (subghz_protocol_blocks_add_bit inst.decoder b).decode_data
               data_count_bit :=
                 (subghz_protocol_blocks_add_bit inst.decoder b).decode_count_bit }]
         else []) := by
    intro m b hb
    have hb2 : (subghz_protocol_blocks_add_bit inst.decoder b).decode_count_bit ≥ 42 := hb
    simp only [feed_switch, with_line_state, hstep, tpms_protocol_schrader_bc5a4_const,
      check_parity_true, hb2]
    simp
  rw [h, hsw _ _ hfull]
  exact ⟨check_parity_true, rfl, rfl, rfl⟩

/-- Witness for C15: an instance with 41 payload bits accumulated is fed the
long high pulse that delivers the last bit. -/
theorem validator_always_accepts_witness :
    (tpms_protocol_decoder_schrader_bc5a4_feed firmware_ref
      { mid_frame_instance with
        decoder := { parser_step := SchraderBC5A4DecoderStepDecoderData,
                     decode_data := 0x55, decode_count_bit := 41 } }
      true 244).1.decoder.parser_step = SchraderBC5A4DecoderStepReset :=
  (validator_always_accepts firmware_ref
    { mid_frame_instance with
      decoder := { parser_step := SchraderBC5A4DecoderStepDecoderData,
                   decode_data := 0x55, decode_count_bit := 41 } }
    true 244 rfl (by decide) (by decide) (by decide)).2.2.1

set_option maxRecDepth 100000 in
/-- C13 as stated fails: the instance holding a complete 42-bit frame is the
state in which feed leaves the stale instance after the start pulse and the
example frame; there the byte count that get_hash_data passes to the hash
routine is 6, while ceil(42 / 8) + 1 = 7. -/
theorem hash_byte_count_counterexample :
    (feed_all firmware_ref stale_instance (nominal_start :: frame_edges example_payload)).1 =
      complete_frame_instance ∧
    complete_frame_instance.decoder.decode_count_bit = 42 ∧
    tpms_protocol_decoder_schrader_bc5a4_get_hash_data (fun _ len => len)
      complete_frame_instance = 6 ∧
    (42 + 7) / 8 + 1 = 7 := by
  decide

/-- C13, as amended: for every decode_count_bit value n and every hash
routine, get_hash_data passes the decoder block and floor(n / 8) + 1 as the
number of bytes (6 bytes for a complete 42-bit frame); this is ceil(n / 8) + 1
when n is a multiple of 8 and ceil(n / 8) otherwise. -/
theorem hash_byte_count (hash : SubGhzBlockDecoder → Nat → Nat)
    (inst : TPMSProtocolDecoderSchraderBC5A4) :
    tpms_protocol_decoder_schrader_bc5a4_get_hash_data hash inst =
      hash inst.decoder (inst.decoder.decode_count_bit / 8 + 1) ∧
    tpms_protocol_decoder_schrader_bc5a4_get_hash_data (fun _ len => len) inst =
      inst.decoder.decode_count_bit / 8 + 1 ∧
    (inst.decoder.decode_count_bit % 8 = 0 →
      tpms_protocol_decoder_schrader_bc5a4_get_hash_data (fun _ len => len) inst =
        (inst.decoder.decode_count_bit + 7) / 8 + 1) ∧
    (inst.decoder.decode_count_bit % 8 ≠ 0 →
      tpms_protocol_decoder_schrader_bc5a4_get_hash_data (fun _ len => len) inst =
        (inst.decoder.decode_count_bit + 7) / 8) ∧
    (inst.decoder.decode_count_bit = 42 →
      tpms_protocol_decoder_schrader_bc5a4_get_hash_data (fun _ len => len) inst = 6) := by
  refine ⟨rfl, rfl, ?_, ?_, ?_⟩
  · intro h
    show inst.decoder.decode_count_bit / 8 + 1 = (inst.decoder.decode_count_bit + 7) / 8 + 1
    omega
  · intro h
    show inst.decoder.decode_count_bit / 8 + 1 = (inst.decoder.decode_count_bit + 7) / 8
    omega
  · intro h
    show inst.decoder.decode_count_bit / 8 + 1 = 6
    omega

/-- Witness for C13 as amended: the instance holding a complete 42-bit frame,
with the firmware hash routine. -/
theorem hash_byte_count_witness :
    tpms_protocol_decoder_schrader_bc5a4_get_hash_data (fun _ len => len)
      complete_frame_instance = 6 ∧
    tpms_protocol_decoder_schrader_bc5a4_get_hash_data (fun _ len => len)
      complete_frame_instance = (42 + 7) / 8 :=
  ⟨(hash_byte_count get_hash_data_ref complete_frame_instance).2.2.2.2 rfl,
   (hash_byte_count get_hash_data_ref complete_frame_instance).2.2.2.1 (by decide)⟩


/-! ## Invariants of reachable states -/

/-- C16 as stated fails: the instance is in step Reset with a stale
decode_count_bit of 200, and after a short low pulse, a reset call and a long
high pulse the step is still Reset and the bit count is still 200, above 42. -/
theorem state_machine_invariant_counterexample :
    overfull_instance.decoder.parser_step = SchraderBC5A4DecoderStepReset ∧
    (run_calls firmware_ref overfull_instance
      [DecoderCall.feed false 123, DecoderCall.reset,
       DecoderCall.feed true 244]).1.decoder.parser_step = SchraderBC5A4DecoderStepReset ∧
    (run_calls firmware_ref overfull_instance
      [DecoderCall.feed false 123, DecoderCall.reset,
       DecoderCall.feed true 244]).1.decoder.decode_count_bit = 200 ∧
    ¬ (run_calls firmware_ref overfull_instance
      [DecoderCall.feed false 123, DecoderCall.reset,
       DecoderCall.feed true 244]).1.decoder.decode_count_bit ≤ 42 := by
  decide

/-- C16, as amended: in every state reached from an instance whose step is
Reset by any sequence of feed and reset calls, the step is Reset,
CheckPreamble or DecoderData (never SaveDuration or CheckDuration); in
CheckPreamble decode_count_bit = 0, decode_data = 0 and header_count < 2; in
DecoderData header_count = 2, decode_count_bit < 42 and
decode_data < 2^decode_count_bit.  Hence, when the instance starts with
decode_count_bit at most 42, the bit count never exceeds 42 (in general it is
at most 42 or still the value the instance started with); whenever feed
appends a payload bit the count grows by one to at most 42, no bit is shifted
out of the 64-bit accumulator (decode_data << 1 < 2^64 and the new value is
2 * decode_data + bit), and the test decode_count_bit >= 42 holds exactly
when the new count equals 42. -/
theorem state_machine_invariant (fw : Firmware) (inst0 : TPMSProtocolDecoderSchraderBC5A4)
    (calls : List DecoderCall) (level : Bool) (duration : Nat)
    (hstep0 : inst0.decoder.parser_step = SchraderBC5A4DecoderStepReset) :
    ((run_calls fw inst0 calls).1.decoder.parser_step = SchraderBC5A4DecoderStepReset ∨
      (run_calls fw inst0 calls).1.decoder.parser_step = SchraderBC5A4DecoderStepCheckPreamble ∨
      (run_calls fw inst0 calls).1.decoder.parser_step = SchraderBC5A4DecoderStepDecoderData) ∧
    (run_calls fw inst0 calls).1.decoder.parser_step ≠ SchraderBC5A4DecoderStepSaveDuration ∧
    (run_calls fw inst0 calls).1.decoder.parser_step ≠ SchraderBC5A4DecoderStepCheckDuration ∧
    ((run_calls fw inst0 calls).1.decoder.parser_step = SchraderBC5A4DecoderStepCheckPreamble →
      (run_calls fw inst0 calls).1.decoder.decode_count_bit = 0 ∧
      (run_calls fw inst0 calls).1.decoder.decode_data = 0 ∧
      (run_calls fw inst0 calls).1.header_count < 2) ∧
    ((run_calls fw inst0 calls).1.decoder.parser_step = SchraderBC5A4DecoderStepDecoderData →
      (run_calls fw inst0 calls).1.header_count = 2 ∧
      (run_calls fw inst0 calls).1.decoder.decode_count_bit < 42 ∧
      (run_calls fw inst0 calls).1.decoder.decode_data <
        2 ^ (run_calls fw inst0 calls).1.decoder.decode_count_bit) ∧
    ((run_calls fw inst0 calls).1.decoder.decode_count_bit ≤ 42 ∨
      (run_calls fw inst0 calls).1.decoder.decode_count_bit = inst0.decoder.decode_count_bit) ∧
    (inst0.decoder.decode_count_bit ≤ 42 →
      (run_calls fw inst0 calls).1.decoder.decode_count_bit ≤ 42) ∧
    ((run_calls fw inst0 calls).1.decoder.parser_step = SchraderBC5A4DecoderStepDecoderData →
      level_and_duration_to_event level duration ≠ ManchesterEventReset →
      (fw.manchester_advance (run_calls fw inst0 calls).1.manchester_saved_state
        (level_and_duration_to_event level duration)).1 = true →
      (tpms_protocol_decoder_schrader_bc5a4_feed fw (run_calls fw inst0 calls).1 level
          duration).1.decoder.decode_count_bit =
        (run_calls fw inst0 calls).1.decoder.decode_count_bit + 1 ∧
      (tpms_protocol_decoder_schrader_bc5a4_feed fw (run_calls fw inst0 calls).1 level
          duration).1.decoder.decode_count_bit ≤ 42 ∧
      (run_calls fw inst0 calls).1.decoder.decode_data <<< 1 < 2 ^ 64 ∧
      (tpms_protocol_decoder_schrader_bc5a4_feed fw (run_calls fw inst0 calls).1 level
          duration).1.decoder.decode_data =
        2 * (run_calls fw inst0 calls).1.decoder.decode_data +
          (!(fw.manchester_advance (run_calls fw inst0 calls).1.manchester_saved_state
            (level_and_duration_to_event level duration)).2.2).toNat ∧
      (42 ≤ (tpms_protocol_decoder_schrader_bc5a4_feed fw (run_calls fw inst0 calls).1 level
          duration).1.decoder.decode_count_bit ↔
        (tpms_protocol_decoder_schrader_bc5a4_feed fw (run_calls fw inst0 calls).1 level
          duration).1.decoder.decode_count_bit = 42)) := by
  have hrun := run_calls_preserve_inv fw calls inst0 (reachable_inv_of_reset inst0 hstep0)
  obtain ⟨hinv, hcount⟩ := hrun
  refine ⟨hinv.1, ?_, ?_, hinv.2.1, hinv.2.2, hcount, ?_, ?_⟩
  · intro h
    rcases hinv.1 with h1 | h1 | h1 <;> rw [h1] at h <;> cases h
  · intro h
    rcases hinv.1 with h1 | h1 | h1 <;> rw [h1] at h <;> cases h
  · intro h0
    rcases hcount with h | h
    · exact h
    · rw [h]; exact h0
  · intro hdd hev hb
    obtain ⟨_, hc, hv⟩ := hinv.2.2 hdd
    have hshift : (run_calls fw inst0 calls).1.decoder.decode_data <<< 1 < 2 ^ 64 := by
      have h63 : (run_calls fw inst0 calls).1.decoder.decode_data < 2 ^ 63 :=
        lt_of_lt_of_le hv (Nat.pow_le_pow_right (by decide) (by omega))
      rw [Nat.shiftLeft_eq]
      omega
    obtain ⟨hdata, hcnt, _, _⟩ :=
      feed_appends fw (run_calls fw inst0 calls).1 level duration hinv hdd hev hb
    rw [hcnt]
    refine ⟨rfl, by omega, hshift, hdata, ?_⟩
    omega

/-- Witness for C16 as amended: the stale instance starts with
decode_count_bit = 17; after a start pulse and the two preamble bits it is in
DecoderData with header_count = 2, and its bit count is at most 42. -/
theorem state_machine_invariant_witness :
    (run_calls firmware_ref stale_instance preamble_calls).1.header_count = 2 ∧
    (run_calls firmware_ref stale_instance preamble_calls).1.decoder.decode_count_bit < 42 ∧
    (run_calls firmware_ref stale_instance preamble_calls).1.decoder.decode_count_bit ≤ 42 :=
  have h := state_machine_invariant firmware_ref stale_instance preamble_calls true 244 rfl
  ⟨(h.2.2.2.2.1 (by decide)).1, (h.2.2.2.2.1 (by decide)).2.1,
   h.2.2.2.2.2.2.1 (by decide)⟩

/-- C20: in every state reached by feed and reset calls from an instance
whose step is Reset and whose decode_count_bit is at most 42, the byte count
(decode_count_bit / 8) + 1 that get_hash_data passes to the hash routine
satisfies 1 <= length <= 6 <= 8 and 8 * length >= decode_count_bit; outside
step Reset every set bit of decode_data lies within the first 8 * length
bits; and for a complete 42-bit frame the length is 6. -/
theorem hash_length_bounds (fw : Firmware) (inst0 : TPMSProtocolDecoderSchraderBC5A4)
    (calls : List DecoderCall)
    (hstep0 : inst0.decoder.parser_step = SchraderBC5A4DecoderStepReset)
    (hc0 : inst0.decoder.decode_count_bit ≤ 42) :
    1 ≤ tpms_protocol_decoder_schrader_bc5a4_get_hash_data (fun _ len => len)
      (run_calls fw inst0 calls).1 ∧
    tpms_protocol_decoder_schrader_bc5a4_get_hash_data (fun _ len => len)
      (run_calls fw inst0 calls).1 ≤ 6 ∧
    6 ≤ 8 ∧
    (run_calls fw inst0 calls).1.decoder.decode_count_bit ≤
      8 * tpms_protocol_decoder_schrader_bc5a4_get_hash_data (fun _ len => len)
        (run_calls fw inst0 calls).1 ∧
    ((run_calls fw inst0 calls).1.decoder.parser_step ≠ SchraderBC5A4DecoderStepReset →
      (run_calls fw inst0 calls).1.decoder.decode_data <
        2 ^ (8 * tpms_protocol_decoder_schrader_bc5a4_get_hash_data (fun _ len => len)
          (run_calls fw inst0 calls).1)) ∧
    ((run_calls fw inst0 calls).1.decoder.decode_count_bit = 42 →
      tpms_protocol_decoder_schrader_bc5a4_get_hash_data (fun _ len => len)
        (run_calls fw inst0 calls).1 = 6) := by
  obtain ⟨hinv, hcount⟩ :=
    run_calls_preserve_inv fw calls inst0 (reachable_inv_of_reset inst0 hstep0)
  have hle : (run_calls fw inst0 calls).1.decoder.decode_count_bit ≤ 42 := by
    rcases hcount with h | h
    · exact h
    · rw [h]; exact hc0
  have hlen : tpms_protocol_decoder_schrader_bc5a4_get_hash_data (fun _ len => len)
      (run_calls fw inst0 calls).1 =
      (run_calls fw inst0 calls).1.decoder.decode_count_bit / 8 + 1 := rfl
  rw [hlen]
  refine ⟨by omega, by omega, by decide, by omega, ?_, by omega⟩
  intro hne
  have hdata : (run_calls fw inst0 calls).1.decoder.decode_data <
      2 ^ (run_calls fw inst0 calls).1.decoder.decode_count_bit := by
    rcases hinv.1 with h | h | h
    · exact absurd h hne
    · obtain ⟨h1, h2, _⟩ := hinv.2.1 h
      rw [h1, h2]
      decide
    · exact (hinv.2.2 h).2.2
  exact lt_of_lt_of_le hdata (Nat.pow_le_pow_right (by decide) (by omega))

set_option maxRecDepth 100000 in
/-- Witness for C20: the stale instance has decode_count_bit = 17; after the
start pulse and the whole example frame the hash length is 6. -/
theorem hash_length_bounds_witness :
    tpms_protocol_decoder_schrader_bc5a4_get_hash_data (fun _ len => len)
      (run_calls firmware_ref stale_instance
        (feed_calls (nominal_start :: frame_edges example_payload))).1 = 6 :=
  (hash_length_bounds firmware_ref stale_instance
    (feed_calls (nominal_start :: frame_edges example_payload)) rfl
    (by decide)).2.2.2.2.2 (by decide)


/-! ## Callback discipline, determinism, reset -/

/-- C11: in every state reached by feed and reset calls from an instance
whose step is Reset, a single feed call invokes the callback at most once;
it invokes it only if before the call the step is DecoderData, the event is
recognised, the line decoder delivers a bit and that bit brings
decode_count_bit from 41 to 42 (with a callback registered, and the record
is the generic record after the call).  No call made in step Reset or
CheckPreamble, no call on an unrecognised duration, no call for which the
line decoder reports no bit, and no call that leaves decode_count_bit below
42 invokes the callback. -/
theorem callback_only_on_completion (fw : Firmware) (inst0 : TPMSProtocolDecoderSchraderBC5A4)
    (calls : List DecoderCall) (level : Bool) (duration : Nat)
    (hstep0 : inst0.decoder.parser_step = SchraderBC5A4DecoderStepReset) :
    (tpms_protocol_decoder_schrader_bc5a4_feed fw (run_calls fw inst0 calls).1 level
      duration).2.length ≤ 1 ∧
    ((tpms_protocol_decoder_schrader_bc5a4_feed fw (run_calls fw inst0 calls).1 level
        duration).2 ≠ [] →
      (run_calls fw inst0 calls).1.decoder.parser_step = SchraderBC5A4DecoderStepDecoderData ∧
      level_and_duration_to_event level duration ≠ ManchesterEventReset ∧
      (fw.manchester_advance (run_calls fw inst0 calls).1.manchester_saved_state
        (level_and_duration_to_event level duration)).1 = true ∧
      (run_calls fw inst0 calls).1.decoder.decode_count_bit = 41 ∧
      (tpms_protocol_decoder_schrader_bc5a4_feed fw (run_calls fw inst0 calls).1 level
        duration).1.decoder.decode_count_bit = 42 ∧
      (run_calls fw inst0 calls).1.callback = true ∧
      (tpms_protocol_decoder_schrader_bc5a4_feed fw (run_calls fw inst0 calls).1 level
          duration).2 =
        [(tpms_protocol_decoder_schrader_bc5a4_feed fw (run_calls fw inst0 calls).1 level
          duration).1.generic]) ∧
    (((run_calls fw inst0 calls).1.decoder.parser_step = SchraderBC5A4DecoderStepReset ∨
        (run_calls fw inst0 calls).1.decoder.parser_step =
          SchraderBC5A4DecoderStepCheckPreamble) →
      (tpms_protocol_decoder_schrader_bc5a4_feed fw (run_calls fw inst0 calls).1 level
        duration).2 = []) ∧
    (level_and_duration_to_event level duration = ManchesterEventReset →
      (tpms_protocol_decoder_schrader_bc5a4_feed fw (run_calls fw inst0 calls).1 level
        duration).2 = []) ∧
    ((fw.manchester_advance (run_calls fw inst0 calls).1.manchester_saved_state
        (level_and_duration_to_event level duration)).1 = false →
      (tpms_protocol_decoder_schrader_bc5a4_feed fw (run_calls fw inst0 calls).1 level
        duration).2 = []) ∧
    ((tpms_protocol_decoder_schrader_bc5a4_feed fw (run_calls fw inst0 calls).1 level
        duration).1.decoder.decode_count_bit < 42 →
      (tpms_protocol_decoder_schrader_bc5a4_feed fw (run_calls fw inst0 calls).1 level
        duration).2 = []) := by
  obtain ⟨hinv, _⟩ :=
    run_calls_preserve_inv fw calls inst0 (reachable_inv_of_reset inst0 hstep0)
  rcases feed_cases fw (run_calls fw inst0 calls).1 level duration hinv with h | h | h
  · obtain ⟨_, _, ht⟩ := h
    rw [ht]
    refine ⟨by simp, fun hne => absurd rfl hne, fun _ => rfl, fun _ => rfl, fun _ => rfl,
      fun _ => rfl⟩
  · obtain ⟨_, hf⟩ := h
    rw [hf]
    refine ⟨by simp, fun hne => absurd rfl hne, fun _ => rfl, fun _ => rfl, fun _ => rfl,
      fun _ => rfl⟩
  · obtain ⟨hdd, hev, hb, _, hcnt, hmore, hlast⟩ := h
    have hc := (hinv.2.2 hdd).2.1
    by_cases h41 : (run_calls fw inst0 calls).1.decoder.decode_count_bit = 41
    · obtain ⟨ht, _⟩ := hlast h41
      refine ⟨?_, ?_, ?_, fun h => absurd h hev, ?_, ?_⟩
      · rw [ht]
        split_ifs <;> simp
      · intro hne
        have hcb : (run_calls fw inst0 calls).1.callback = true := by
          by_contra hcb
          rw [ht, if_neg hcb] at hne
          exact hne rfl
        refine ⟨hdd, hev, hb, h41, by rw [hcnt, h41], hcb, ?_⟩
        rw [ht, if_pos hcb]
      · intro hs
        rcases hs with hs | hs <;> rw [hdd] at hs <;> cases hs
      · intro hno
        rw [hb] at hno
        cases hno
      · intro hlt
        rw [hcnt, h41] at hlt
        omega
    · obtain ⟨ht, _⟩ := hmore (by omega)
      rw [ht]
      refine ⟨by simp, fun hne => absurd rfl hne, fun _ => rfl, fun _ => rfl, fun _ => rfl,
        fun _ => rfl⟩

/-- Witness for C11: after the start pulse and the preamble the stale instance
is fed a long high pulse that appends the first payload bit; the count is 1
and the callback is not invoked. -/
theorem callback_only_on_completion_witness :
    (tpms_protocol_decoder_schrader_bc5a4_feed firmware_ref
      (run_calls firmware_ref stale_instance preamble_calls).1 true 244).2 = [] :=
  (callback_only_on_completion firmware_ref stale_instance preamble_calls true 244
    rfl).2.2.2.2.2 (by decide)

/-- C12: for any two instances whose step is Reset, with the same callback
registration and all other fields arbitrary, and any edge sequence that
contains a valid start pulse, feeding the sequence to both leaves them with
equal step, decode_data, decode_count_bit, header_count and line decoder
state; after every prefix of the sequence the callback invocations made so
far are the same, with the same records; and get_hash_data returns equal
values for every hash routine.  In particular, when the sequence leaves an
instance in step Reset (as a complete frame does), feeding it again to that
instance gives the same callback records and the same hash. -/
theorem decoding_deterministic (fw : Firmware) (hash : SubGhzBlockDecoder → Nat → Nat)
    (a b : TPMSProtocolDecoderSchraderBC5A4) (es : List EdgeEvent)
    (ha : a.decoder.parser_step = SchraderBC5A4DecoderStepReset)
    (hb : b.decoder.parser_step = SchraderBC5A4DecoderStepReset)
    (hcb : a.callback = b.callback)
    (hstart : ∃ e ∈ es, start_pulse e) :
    (feed_all fw a es).1.decoder.parser_step = (feed_all fw b es).1.decoder.parser_step ∧
    (feed_all fw a es).1.decoder.decode_data = (feed_all fw b es).1.decoder.decode_data ∧
    (feed_all fw a es).1.decoder.decode_count_bit =
      (feed_all fw b es).1.decoder.decode_count_bit ∧
    (feed_all fw a es).1.header_count = (feed_all fw b es).1.header_count ∧
    (feed_all fw a es).1.manchester_saved_state = (feed_all fw b es).1.manchester_saved_state ∧
    (∀ k, (feed_all fw a (es.take k)).2 = (feed_all fw b (es.take k)).2) ∧
    tpms_protocol_decoder_schrader_bc5a4_get_hash_data hash (feed_all fw a es).1 =
      tpms_protocol_decoder_schrader_bc5a4_get_hash_data hash (feed_all fw b es).1 ∧
    ((feed_all fw a es).1.decoder.parser_step = SchraderBC5A4DecoderStepReset →
      (feed_all fw (feed_all fw a es).1 es).2 = (feed_all fw a es).2 ∧
      tpms_protocol_decoder_schrader_bc5a4_get_hash_data hash
          (feed_all fw (feed_all fw a es).1 es).1 =
        tpms_protocol_decoder_schrader_bc5a4_get_hash_data hash (feed_all fw a es).1) := by
  have hagree := feed_all_from_reset_agree fw es a b ha hb hcb
  obtain ⟨_, hdec, hhc, hms⟩ := hagree.2.2.1 hstart
  refine ⟨hagree.2.1, by rw [hdec], by rw [hdec], hhc, hms, ?_, ?_, ?_⟩
  · intro k
    exact (feed_all_from_reset_agree fw (es.take k) a b ha hb hcb).1
  · simp only [tpms_protocol_decoder_schrader_bc5a4_get_hash_data, hdec]
  · intro hfin
    have hcb2 : (feed_all fw a es).1.callback = a.callback := feed_all_callback_kept fw es a
    have h2 := feed_all_from_reset_agree fw es (feed_all fw a es).1 a hfin ha hcb2
    obtain ⟨_, hdec2, _, _⟩ := h2.2.2.1 hstart
    refine ⟨h2.1, ?_⟩
    simp only [tpms_protocol_decoder_schrader_bc5a4_get_hash_data, hdec2]

set_option maxRecDepth 100000 in
/-- Witness for C12: the stale instance and the instance holding an earlier
complete frame are fed the start pulse and the example frame; the hashes of
the firmware routine agree, and feeding the frame a second time to the stale
instance repeats the callback record. -/
theorem decoding_deterministic_witness :
    tpms_protocol_decoder_schrader_bc5a4_get_hash_data get_hash_data_ref
        (feed_all firmware_ref stale_instance
          (nominal_start :: frame_edges example_payload)).1 =
      tpms_protocol_decoder_schrader_bc5a4_get_hash_data get_hash_data_ref
        (feed_all firmware_ref complete_frame_instance
          (nominal_start :: frame_edges example_payload)).1 ∧
    (feed_all firmware_ref
        (feed_all firmware_ref stale_instance (nominal_start :: frame_edges example_payload)).1
        (nominal_start :: frame_edges example_payload)).2 =
      (feed_all firmware_ref stale_instance (nominal_start :: frame_edges example_payload)).2 :=
  have h := decoding_deterministic firmware_ref get_hash_data_ref stale_instance
    complete_frame_instance (nominal_start :: frame_edges example_payload) rfl rfl rfl
    ⟨nominal_start, List.mem_cons_self _ _, by decide⟩
  ⟨h.2.2.2.2.2.2.1, (h.2.2.2.2.2.2.2 (by decide)).1⟩

/-- C14: after tpms_protocol_decoder_schrader_bc5a4_reset the step is Reset
and decode_data, decode_count_bit, header_count, the line decoder state, the
generic record and the callback registration are unchanged; reset is
idempotent; and the reset instance responds to every subsequent edge sequence
as any other instance in step Reset (a freshly reset one) with the same
callback registration does: the same callback invocations with the same
records and the same step reached; if the sequence has no start pulse both
instances are left as they were and accumulate nothing; if it has one, or if
the machine is left outside step Reset, the accumulator, the preamble counter
and the line decoder state are equal. -/
theorem reset_behaviour (fw : Firmware) (inst fresh : TPMSProtocolDecoderSchraderBC5A4)
    (es : List EdgeEvent)
    (hfresh : fresh.decoder.parser_step = SchraderBC5A4DecoderStepReset)
    (hcb : fresh.callback = inst.callback) :
    (tpms_protocol_decoder_schrader_bc5a4_reset inst).decoder.parser_step =
      SchraderBC5A4DecoderStepReset ∧
    (tpms_protocol_decoder_schrader_bc5a4_reset inst).decoder.decode_data =
      inst.decoder.decode_data ∧
    (tpms_protocol_decoder_schrader_bc5a4_reset inst).decoder.decode_count_bit =
      inst.decoder.decode_count_bit ∧
    (tpms_protocol_decoder_schrader_bc5a4_reset inst).header_count = inst.header_count ∧
    (tpms_protocol_decoder_schrader_bc5a4_reset inst).manchester_saved_state =
      inst.manchester_saved_state ∧
    (tpms_protocol_decoder_schrader_bc5a4_reset inst).generic = inst.generic ∧
    (tpms_protocol_decoder_schrader_bc5a4_reset inst).callback = inst.callback ∧
    tpms_protocol_decoder_schrader_bc5a4_reset (tpms_protocol_decoder_schrader_bc5a4_reset inst) =
      tpms_protocol_decoder_schrader_bc5a4_reset inst ∧
    (feed_all fw (tpms_protocol_decoder_schrader_bc5a4_reset inst) es).2 =
      (feed_all fw fresh es).2 ∧
    (feed_all fw (tpms_protocol_decoder_schrader_bc5a4_reset inst) es).1.decoder.parser_step =
      (feed_all fw fresh es).1.decoder.parser_step ∧
    ((∀ e ∈ es, ¬ start_pulse e) →
      feed_all fw (tpms_protocol_decoder_schrader_bc5a4_reset inst) es =
        (tpms_protocol_decoder_schrader_bc5a4_reset inst, []) ∧
      feed_all fw fresh es = (fresh, [])) ∧
    (((∃ e ∈ es, start_pulse e) ∨
        (feed_all fw (tpms_protocol_decoder_schrader_bc5a4_reset inst) es).1.decoder.parser_step ≠
          SchraderBC5A4DecoderStepReset) →
      (feed_all fw (tpms_protocol_decoder_schrader_bc5a4_reset inst) es).1.decoder =
        (feed_all fw fresh es).1.decoder ∧
      (feed_all fw (tpms_protocol_decoder_schrader_bc5a4_reset inst) es).1.header_count =
        (feed_all fw fresh es).1.header_count ∧
      (feed_all fw (tpms_protocol_decoder_schrader_bc5a4_reset inst) es).1.manchester_saved_state =
        (feed_all fw fresh es).1.manchester_saved_state) := by
  have hagree := feed_all_from_reset_agree fw es
    (tpms_protocol_decoder_schrader_bc5a4_reset inst) fresh rfl hfresh hcb.symm
  refine ⟨rfl, rfl, rfl, rfl, rfl, rfl, rfl, rfl, hagree.1, hagree.2.1, hagree.2.2.2, ?_⟩
  intro h
  have hstart : ∃ e ∈ es, start_pulse e := by
    rcases h with h | h
    · exact h
    · by_contra hno
      have hall : ∀ e ∈ es, ¬ start_pulse e := fun e he hs => hno ⟨e, he, hs⟩
      rw [(hagree.2.2.2 hall).1] at h
      exact h rfl
  exact (hagree.2.2.1 hstart).2

set_option maxRecDepth 100000 in
/-- Witness for C14: the mid-frame instance is reset and then fed the start
pulse and the example frame, next to the stale Reset-step instance. -/
theorem reset_behaviour_witness :
    (feed_all firmware_ref (tpms_protocol_decoder_schrader_bc5a4_reset mid_frame_instance)
        (nominal_start :: frame_edges example_payload)).2 =
      (feed_all firmware_ref stale_instance (nominal_start :: frame_edges example_payload)).2 ∧
    (feed_all firmware_ref (tpms_protocol_decoder_schrader_bc5a4_reset mid_frame_instance)
        (nominal_start :: frame_edges example_payload)).1.decoder =
      (feed_all firmware_ref stale_instance
        (nominal_start :: frame_edges example_payload)).1.decoder :=
  have h := reset_behaviour firmware_ref mid_frame_instance stale_instance
    (nominal_start :: frame_edges example_payload) rfl rfl
  ⟨h.2.2.2.2.2.2.2.2.1,
   (h.2.2.2.2.2.2.2.2.2.2.2 (Or.inl ⟨nominal_start, List.mem_cons_self _ _, by decide⟩)).1⟩


end SchraderBC5A4
